import Mathlib

/-!
# pg_reorg client driver (`bin/pg_reorg.c`): a shallow embedding

The driver is a single-threaded C program that talks to a PostgreSQL server
through libpq.  The embedding runs the driver against a *finite list of server
replies* (`World.replies`): every round-trip consumes the next reply, and the
run records what the driver did as a list of `Event`s.

* A statement is recorded together with the reply it got (`none` when the
  reply list is exhausted: the run stops there with `Halt.blocked`).
* Every recorded statement and every `elog(ERROR, ...)` carries the line of
  `bin/pg_reorg.c` it comes from, so that statements are told apart by their
  call site and not by SQL text (the scripts supplied by the server are
  arbitrary strings).
* The two `for (;;)` loops take an iteration bound (`fuel`); a run that
  reaches the bound stops with `Halt.fuel`.
* `fprintf(stderr, ...)` diagnostics guarded by `verbose` are not recorded.
-/

namespace PgReorg

/-! ## libpq and libc -/

/-- Result status of libpq, `ExecStatusType`. -/
inductive ExecStatusType where
  | PGRES_EMPTY_QUERY
  | PGRES_COMMAND_OK
  | PGRES_TUPLES_OK
  | PGRES_COPY_OUT
  | PGRES_COPY_IN
  | PGRES_BAD_RESPONSE
  | PGRES_NONFATAL_ERROR
  | PGRES_FATAL_ERROR
  deriving DecidableEq, Repr

/-- Connection status of libpq, `ConnStatusType` (the two values the driver tests). -/
inductive ConnStatusType where
  | CONNECTION_OK
  | CONNECTION_BAD
  deriving DecidableEq, Repr

/-- A libpq result: status, the SQLSTATE error field (`none` is the NULL that
`PQresultErrorField` returns when the field is absent), the error message and
the rows of nullable text fields. -/
structure PGresult where
  status : ExecStatusType
  sqlstate : Option String
  errorMessage : String
  tuples : List (List (Option String))
  deriving DecidableEq, Repr

/-- Number of rows, `PQntuples`. -/
def PQntuples (res : PGresult) : Nat := res.tuples.length

/-- The libpq test `PQgetisnull`: a field is null when it holds SQL NULL, and
also when the row or column number is out of range. -/
def PQgetisnull (res : PGresult) (row col : Nat) : Bool :=
  match res.tuples[row]? with
  | none => true
  | some t =>
    match t[col]? with
    | some (some _) => false
    | _ => true

/-- The libpq accessor `PQgetvalue`: the field text, the empty string for SQL
NULL, and a NULL pointer (`none`) when the row or column is out of range. -/
def PQgetvalue (res : PGresult) (row col : Nat) : Option String :=
  match res.tuples[row]? with
  | none => none
  | some t =>
    match t[col]? with
    | some (some v) => some v
    | some none => some ""
    | none => none

/-- Error field `PQresultErrorField(res, PG_DIAG_SQLSTATE)`. -/
def PQresultErrorField_SQLSTATE (res : PGresult) : Option String := res.sqlstate

/-- White space of the C locale, `isspace`. -/
def isspace (c : Char) : Bool :=
  c = ' ' || c = '\t' || c = '\n' || c = '\x0b' || c = '\x0c' || c = '\r'

/-- Decimal digit, `isdigit`. -/
def isdigit (c : Char) : Bool := decide ('0' ≤ c) && decide (c ≤ '9')

/-- Value of the longest run of decimal digits at the head of `cs`, on top of `acc`. -/
def digits_value : Nat → List Char → Nat
  | acc, [] => acc
  | acc, c :: cs => if isdigit c then digits_value (acc * 10 + (c.toNat - 48)) cs else acc

/-- The libc conversion `strtol(s, NULL, 10)` with a 64-bit `long`: optional
white space, optional sign, decimal digits; 0 when there is no digit; the
result saturates at `LONG_MAX` and `LONG_MIN`. -/
def strtol10 (s : String) : Int :=
  let body (neg : Bool) (ds : List Char) : Int :=
    let v := digits_value 0 ds
    if neg then
      if v ≥ 9223372036854775808 then -9223372036854775808 else - (v : Int)
    else
      if v ≥ 9223372036854775808 then 9223372036854775807 else (v : Int)
  match s.toList.dropWhile isspace with
  | '-' :: ds => body true ds
  | '+' :: ds => body false ds
  | ds => body false ds

/-- Conversion of a `long` to `int`, as in `int result = ...`: the low 32 bits
read as a two's complement number. -/
def int_of_long (v : Int) : Int := (v + 2147483648) % 4294967296 - 2147483648

/-- The libc conversion `atoi`, which glibc defines as `(int) strtol(s, NULL, 10)`:
the value wraps into the range of a 32-bit `int`. -/
def atoi (s : String) : Int := int_of_long (strtol10 s)

/-- An object identifier: `unsigned int`, 32 bits. -/
abbrev Oid := Nat

/-- The invalid object identifier. -/
def InvalidOid : Oid := 0

/-- The libc conversion `strtoul(s, NULL, 10)` with a 64-bit `unsigned long`:
saturates at `ULONG_MAX`, and a leading minus sign negates modulo `2^64`. -/
def strtoul10 (s : String) : Nat :=
  let body (neg : Bool) (ds : List Char) : Nat :=
    let v := digits_value 0 ds
    if v ≥ 2 ^ 64 then 2 ^ 64 - 1
    else if neg then (2 ^ 64 - v) % 2 ^ 64 else v
  match s.toList.dropWhile isspace with
  | '-' :: ds => body true ds
  | '+' :: ds => body false ds
  | ds => body false ds

/-- Text of `sprintf(buffer, "%u", value)` for an `unsigned int` argument. -/
def utoa (value : Nat) : String := toString (value % 2 ^ 32)

/-- Text printed by the printf conversion `%s`; glibc prints `(null)` for a NULL pointer. -/
def fmt_s (s : Option String) : String :=
  match s with
  | some v => v
  | none => "(null)"

/-! ## Program state, events and the driver monad -/

/-- Per-table information, `struct reorg_table`.  Every `const char *` field
comes from `getstr` and may be NULL (`none`). -/
structure reorg_table where
  target_name : Option String
  target_oid : Oid
  target_toast : Oid
  target_tidx : Oid
  pkid : Oid
  ckid : Oid
  create_pktype : Option String
  create_log : Option String
  create_trigger : Option String
  create_table : Option String
  delete_log : Option String
  lock_table : Option String
  sql_peek : Option String
  sql_insert : Option String
  sql_delete : Option String
  sql_update : Option String
  sql_pop : Option String
  deriving DecidableEq, Repr

/-- Per-index information, `struct reorg_index`. -/
structure reorg_index where
  target_oid : Oid
  create_index : Option String
  deriving DecidableEq, Repr

/-- What the driver does that is visible from outside. -/
inductive Event where
  /-- A statement sent at source line `line`, with its parameters (`none` is a
  NULL pointer) and the reply received (`none`: no reply yet). -/
  | exec (line : Nat) (sql : Option String) (params : List (Option String))
      (reply : Option PGresult)
  /-- The call `sleep(seconds)`. -/
  | sleep (seconds : Nat)
  /-- Text written to standard output. -/
  | stdout (text : String)
  /-- Text written to standard error. -/
  | stderr (text : String)
  /-- The call `reconnect()`. -/
  | reconnect
  /-- The call `disconnect()`. -/
  | disconnect
  deriving DecidableEq, Repr

/-- Ways a run stops before the function returns. -/
inductive Halt where
  /-- Raised by `elog(ERROR, ...)` at source line `line`. -/
  | error (line : Nat) (msg : String)
  /-- The call `exit(code)`. -/
  | exit (code : Nat)
  /-- Undefined behaviour at source line `line`: a NULL pointer handed to a libc string function. -/
  | crash (line : Nat)
  /-- The statement last sent has no reply yet. -/
  | blocked
  /-- The iteration bound of a `for (;;)` loop of the embedding was reached. -/
  | fuel
  deriving DecidableEq, Repr

/-- Result of a run: a value, or a stop. -/
inductive Res (α : Type) where
  | ok (a : α)
  | halt (h : Halt)
  deriving DecidableEq, Repr

/-- The file-scope variables of `pg_reorg.c`, the session and the replies the
server is going to give. -/
structure World where
  replies : List PGresult
  connection : Option ConnStatusType
  server_version : Nat
  verbose : Bool
  quiet : Bool
  analyze : Bool
  alldb : Bool
  table : Option String
  orderby : Option String
  current_table : Option reorg_table
  deriving DecidableEq, Repr

/-- Outcome of running a piece of the driver: the events it produced, its result and the state it left. -/
structure Out (α : Type) where
  events : List Event
  res : Res α
  world : World

/-- A piece of the driver: a function of the state it starts in. -/
def M (α : Type) : Type := World → Out α

/-- Return a value without doing anything. -/
def M.pure {α : Type} (a : α) : M α := fun w => ⟨[], .ok a, w⟩

/-- The outcome `o` with the events `evs` put in front of its own. -/
def Out.prepend {α : Type} (evs : List Event) (o : Out α) : Out α :=
  ⟨evs ++ o.events, o.res, o.world⟩

/-- Sequencing: run `x`; unless it stopped, run `f` on its value in the state
`x` left, after the events of `x`. -/
def M.bind {α β : Type} (x : M α) (f : α → M β) : M β := fun w =>
  match (x w).res with
  | .ok a => (f a (x w).world).prepend (x w).events
  | .halt h => ⟨(x w).events, .halt h, (x w).world⟩

instance : Monad M where
  pure := M.pure
  bind := M.bind

/-- Record one event. -/
def emit (e : Event) : M Unit := fun w => ⟨[e], .ok (), w⟩

/-- Stop the run. -/
def halt {α : Type} (h : Halt) : M α := fun w => ⟨[], .halt h, w⟩

/-- Read the state. -/
def get_world : M World := fun w => ⟨[], .ok w, w⟩

/-- Assignment to the file-scope variable `current_table`. -/
def set_current_table (t : Option reorg_table) : M Unit :=
  fun w => ⟨[], .ok (), { w with current_table := t }⟩

/-- The call `sleep(seconds)`. -/
def sleep (seconds : Nat) : M Unit := emit (.sleep seconds)

/-- The call `elog(ERROR, ...)` at source line `line`: the run stops. -/
def elog_ERROR {α : Type} (line : Nat) (msg : String) : M α := halt (.error line msg)

/-- Message levels of pgut used by the driver. -/
inductive Elevel where
  | LOG
  | NOTICE
  | ERROR
  deriving DecidableEq, Repr

/-- A result that is not a failure: the statement completed or returned rows. -/
def PGresult.succeeded (r : PGresult) : Bool :=
  r.status = .PGRES_COMMAND_OK || r.status = .PGRES_TUPLES_OK

/-- Modelled from the spec: `execute_elevel` of the pgut library (not under
src/), the session adapter `exec_lenient`, and `exec` when `elevel` is
`ERROR`.  It sends the statement and takes the next reply of the server; a
non-success reply is a fatal error at level `ERROR` and is returned to the
caller at the lower levels.  `line` is the source line of the call. -/
def execute_elevel (line : Nat) (query : Option String) (params : List (Option String))
    (elevel : Elevel) : M PGresult := fun w =>
  match w.replies with
  | [] => ⟨[.exec line query params none], .halt .blocked, w⟩
  | r :: rs =>
    if r.succeeded || elevel != .ERROR then
      ⟨[.exec line query params (some r)], .ok r, { w with replies := rs }⟩
    else
      ⟨[.exec line query params (some r)], .halt (.error line r.errorMessage),
        { w with replies := rs }⟩

/-- Modelled from the spec: `execute` of the pgut library, the session adapter
`exec`, which raises a fatal error on any non-success result. -/
def execute (line : Nat) (query : Option String) (params : List (Option String)) :
    M PGresult :=
  execute_elevel line query params .ERROR

/-- Modelled from the spec: `command` of the pgut library, `execute` with the result discarded. -/
def command (line : Nat) (query : Option String) (params : List (Option String)) :
    M Unit := do
  let _ ← execute line query params
  pure ()

/-- Modelled from the spec: `reconnect` of the pgut library; the session is usable afterwards. -/
def reconnect : M Unit := fun w =>
  ⟨[.reconnect], .ok (), { w with connection := some .CONNECTION_OK }⟩

/-- Modelled from the spec: `disconnect` of the pgut library; no connection object is left. -/
def disconnect : M Unit := fun w =>
  ⟨[.disconnect], .ok (), { w with connection := none }⟩

/-- Batch size of the catch-up loop, `#define APPLY_COUNT 1000`. -/
def APPLY_COUNT : Nat := 1000

def SQL_XID_SNAPSHOT_80300 : String :=
  "SELECT reorg.array_accum(virtualtransaction) FROM pg_locks" ++
  " WHERE locktype = 'virtualxid' AND pid <> pg_backend_pid()"

def SQL_XID_SNAPSHOT_80200 : String :=
  "SELECT reorg.array_accum(transactionid) FROM pg_locks" ++
  " WHERE locktype = 'transactionid' AND pid <> pg_backend_pid()"

def SQL_XID_ALIVE_80300 : String :=
  "SELECT 1 FROM pg_locks WHERE locktype = 'virtualxid'" ++
  " AND pid <> pg_backend_pid() AND virtualtransaction = ANY($1) LIMIT 1"

def SQL_XID_ALIVE_80200 : String :=
  "SELECT 1 FROM pg_locks WHERE locktype = 'transactionid'" ++
  " AND pid <> pg_backend_pid() AND transactionid = ANY($1) LIMIT 1"

/-- The macro `SQL_XID_SNAPSHOT`, a choice by server version. -/
def SQL_XID_SNAPSHOT (server_version : Nat) : String :=
  if server_version ≥ 80300 then SQL_XID_SNAPSHOT_80300 else SQL_XID_SNAPSHOT_80200

/-- The macro `SQL_XID_ALIVE`, a choice by server version. -/
def SQL_XID_ALIVE (server_version : Nat) : String :=
  if server_version ≥ 80300 then SQL_XID_ALIVE_80300 else SQL_XID_ALIVE_80200

def SQLSTATE_INVALID_SCHEMA_NAME : String := "3F000"

def SQLSTATE_LOCK_NOT_AVAILABLE : String := "55P03"

/-- The function `sqlstate_equals` (lines 90-93): `strcmp` of the SQLSTATE
field with `state`; `none` when the field is NULL, which `strcmp` must not be given. -/
def sqlstate_equals (res : PGresult) (state : String) : Option Bool :=
  match PQresultErrorField_SQLSTATE res with
  | some s => some (s = state)
  | none => none

/-- The function `getstr` (lines 222-229). -/
def getstr (res : PGresult) (row col : Nat) : Option String :=
  if PQgetisnull res row col then none else PQgetvalue res row col

/-- The function `getoid` (lines 231-238). -/
def getoid (res : PGresult) (row col : Nat) : Oid :=
  if PQgetisnull res row col then InvalidOid
  else
    match PQgetvalue res row col with
    | some v => strtoul10 v % 2 ^ 32
    | none => InvalidOid

/-- The function `apply_log` (lines 359-380). -/
def apply_log (table : reorg_table) (count : Nat) : M Int := do
  let params := [table.sql_peek, table.sql_insert, table.sql_delete,
    table.sql_update, table.sql_pop, some (utoa count)]
  let res ← execute 374 (some "SELECT reorg.reorg_apply($1, $2, $3, $4, $5, $6)") params
  match PQgetvalue res 0 0 with
  | none => halt (.crash 376)
  | some v => pure (atoi v)

/-- Phase 1 of `reorg_one_table`, "Setup workspaces and a trigger" (lines 426-444). -/
def setup (table : reorg_table) : M Unit := do
  command 426 (some "BEGIN ISOLATION LEVEL READ COMMITTED") []
  let params := [some (utoa table.target_oid)]
  let res ← execute 434 (some "SELECT reorg.conflicted_triggers($1)") params
  if PQntuples res > 0 then
    elog_ERROR 436 ("trigger " ++ fmt_s (PQgetvalue res 0 0) ++ " conflicted for "
      ++ fmt_s table.target_name)
  command 439 table.create_pktype []
  command 440 table.create_log []
  command 441 table.create_trigger []
  command 443 (some ("SELECT reorg.disable_autovacuum('reorg.log_" ++ utoa table.target_oid
    ++ "')")) []
  command 444 (some "COMMIT") []

/-- The test `orderby && !orderby[0]`: an order option that is the empty string. -/
def orderby_is_empty (orderby : Option String) : Bool :=
  match orderby with
  | some o => o = ""
  | none => false

/-- Phase 2 of `reorg_one_table`, "Copy tuples into temp table" (lines 459-471).
Returns `vxid`, the copy of the snapshot taken at line 465. -/
def copy_tuples (table : reorg_table) (orderby : Option String) : M String := do
  command 459 (some "BEGIN ISOLATION LEVEL SERIALIZABLE") []
  command 461
    (some "SELECT set_config('work_mem', current_setting('maintenance_work_mem'), true)") []
  let w ← get_world
  if w.server_version ≥ 80300 && orderby_is_empty orderby then
    command 463 (some "SET LOCAL synchronize_seqscans = off") []
  let res ← execute 464 (some (SQL_XID_SNAPSHOT w.server_version)) []
  let vxid ← (match PQgetvalue res 0 0 with
    | none => halt (.crash 465)
    | some v => pure v)
  command 467 table.delete_log []
  command 468 table.create_table []
  command 470 (some ("SELECT reorg.disable_autovacuum('reorg.table_" ++ utoa table.target_oid
    ++ "')")) []
  command 471 (some "COMMIT") []
  pure vxid

/-- The loop `for (i = 0; i < num; i++)` of phase 3 (lines 485-505), at index
`i` with `n` rows left. -/
def create_indexes_loop (res : PGresult) : Nat → Nat → M Unit
  | _, 0 => pure ()
  | i, n + 1 => do
    let index : reorg_index :=
      { target_oid := getoid res i 0, create_index := getstr res i 1 }
    command 504 index.create_index []
    create_indexes_loop res (i + 1) n

/-- Phase 3 of `reorg_one_table`, "Create indexes on temp table" (lines 479-506). -/
def create_indexes (table : reorg_table) : M Unit := do
  let params := [some (utoa table.target_oid)]
  let res ← execute 480 (some ("SELECT indexrelid,"
    ++ " reorg.reorg_indexdef(indexrelid, indrelid)"
    ++ " FROM pg_index WHERE indrelid = $1")) params
  let num := PQntuples res
  create_indexes_loop res 0 num

/-- Phase 4 of `reorg_one_table`, the loop `for (;;)` of lines 512-532, with at
most `fuel` iterations: "Apply log to temp table until no tuples left in the
log and all of old transactions are finished". -/
def apply_until_done (table : reorg_table) (vxid : String) : Nat → M Unit
  | 0 => halt .fuel
  | fuel + 1 => do
    let num ← apply_log table APPLY_COUNT
    if num > 0 then
      apply_until_done table vxid fuel
    else
      let w ← get_world
      let res ← execute 520 (some (SQL_XID_ALIVE w.server_version)) [some vxid]
      let num := PQntuples res
      if num > 0 then
        sleep 1
        apply_until_done table vxid fuel
      else
        pure ()

/-- The loop `for (;;)` of phase 5 (lines 540-564), with at most `fuel` iterations. -/
def lock_loop (table : reorg_table) : Nat → M Unit
  | 0 => halt .fuel
  | fuel + 1 => do
    command 542 (some "BEGIN ISOLATION LEVEL READ COMMITTED") []
    let res ← execute_elevel 543 table.lock_table [] .NOTICE
    if res.status = .PGRES_COMMAND_OK then
      pure ()
    else
      match sqlstate_equals res SQLSTATE_LOCK_NOT_AVAILABLE with
      | none => halt (.crash 549)
      | some true => do
        command 553 (some "ROLLBACK") []
        sleep 1
        lock_loop table fuel
      | some false => do
        emit (.stdout res.errorMessage)
        halt (.exit 1)

/-- Phase 5 of `reorg_one_table`, "Swap" (lines 540-569). -/
def swap (table : reorg_table) (fuel : Nat) : M Unit := do
  lock_loop table fuel
  let _ ← apply_log table 0
  let params := [some (utoa table.target_oid)]
  command 568 (some "SELECT reorg.reorg_swap($1)") params
  command 569 (some "COMMIT") []

/-- Phase 6 of `reorg_one_table`, "Drop" (lines 577-583). -/
def drop (table : reorg_table) : M Unit := do
  command 577 (some "BEGIN ISOLATION LEVEL READ COMMITTED") []
  let params := [some (utoa table.target_oid)]
  command 579 (some "SELECT reorg.reorg_drop($1)") params
  command 580 (some "COMMIT") []
  set_current_table none

/-- Phase 7 of `reorg_one_table`, "Analyze" (lines 593-597). -/
def analyze_table (table : reorg_table) : M Unit := do
  command 593 (some "BEGIN ISOLATION LEVEL READ COMMITTED") []
  let w ← get_world
  command 596 (some ("ANALYZE " ++ (if w.verbose then "VERBOSE " else "")
    ++ fmt_s table.target_name)) []
  command 597 (some "COMMIT") []

/-- The function `reorg_one_table` (lines 385-600), "Re-organize one table";
`fuel` bounds the iterations of each of its two `for (;;)` loops. -/
def reorg_one_table (table : reorg_table) (orderby : Option String) (fuel : Nat) : M Unit := do
  setup table
  set_current_table (some table)
  let vxid ← copy_tuples table orderby
  create_indexes table
  apply_until_done table vxid fuel
  swap table fuel
  drop table
  analyze_table table

/-- The body of the loop of `reorg_one_database` up to the call of
`reorg_one_table` (lines 298-347): the descriptor of row `i`. -/
def read_table (orderby : Option String) (res : PGresult) (i : Nat) : M reorg_table := do
  let target_name := getstr res i 0
  let target_oid := getoid res i 1
  let target_toast := getoid res i 2
  let target_tidx := getoid res i 3
  let pkid := getoid res i 4
  let ckid := getoid res i 5
  if pkid = 0 then
    elog_ERROR 311 ("relation \"" ++ fmt_s target_name ++ "\" has no primary key")
  let create_pktype := getstr res i 6
  let create_log := getstr res i 7
  let create_trigger := getstr res i 8
  let create_table := getstr res i 9
  let delete_log := getstr res i 10
  let lock_table := getstr res i 11
  let ckey := getstr res i 12
  let table_create_table ← (match orderby with
    | none =>
      match ckey with
      | none => elog_ERROR 327 ("relation \"" ++ fmt_s target_name ++ "\" has no cluster key")
      | some k => pure (some (fmt_s create_table ++ " ORDER BY " ++ k))
    | some o =>
      if o = "" then pure create_table
      else pure (some (fmt_s create_table ++ " ORDER BY " ++ o)))
  let sql_peek := getstr res i 13
  let sql_insert := getstr res i 14
  let sql_delete := getstr res i 15
  let sql_update := getstr res i 16
  let sql_pop := getstr res i 17
  pure { target_name := target_name, target_oid := target_oid, target_toast := target_toast,
         target_tidx := target_tidx, pkid := pkid, ckid := ckid,
         create_pktype := create_pktype, create_log := create_log,
         create_trigger := create_trigger, create_table := table_create_table,
         delete_log := delete_log, lock_table := lock_table, sql_peek := sql_peek,
         sql_insert := sql_insert, sql_delete := sql_delete, sql_update := sql_update,
         sql_pop := sql_pop }

/-- The loop `for (i = 0; i < num; i++)` of `reorg_one_database` (lines
296-350), at row `i` with `n` rows left. -/
def reorg_tables_loop (orderby : Option String) (res : PGresult) (fuel : Nat) :
    Nat → Nat → M Unit
  | _, 0 => pure ()
  | i, n + 1 => do
    let table ← read_table orderby res i
    reorg_one_table table orderby fuel
    reorg_tables_loop orderby res fuel (i + 1) n

/-- The function `reorg_one_database` (lines 243-357), "Call reorg_one_table
for the target table or each table in a database". -/
def reorg_one_database (orderby : Option String) (table : Option String) (fuel : Nat) :
    M Bool := do
  reconnect
  command 257 (some "SET search_path = pg_catalog, pg_temp, public") []
  command 260 (some "SET client_min_messages = warning") []
  let res ← (match table with
    | some t =>
      execute_elevel 267 (some ("SELECT * FROM reorg.tables WHERE " ++ "relid = $1::regclass"))
        [some t] .LOG
    | none =>
      execute_elevel 274 (some ("SELECT * FROM reorg.tables WHERE " ++ "pkid IS NOT NULL"
        ++ (if orderby.isNone then " AND ckid IS NOT NULL" else ""))) [] .LOG)
  if res.status ≠ .PGRES_TUPLES_OK then
    match sqlstate_equals res SQLSTATE_INVALID_SCHEMA_NAME with
    | none => halt (.crash 279)
    | some true => do
      disconnect
      pure false
    | some false => do
      emit (.stdout res.errorMessage)
      halt (.exit 1)
  else
    let num := PQntuples res
    reorg_tables_loop orderby res fuel 0 num
    disconnect
    pure true

/-- Modelled from the spec: `assign_option` of the pgut library (not under
src/) stores the argument of an option in its variable. -/
def assign_option (arg : Option String) : Option String := arg

/-- The function `pgut_argument` (lines 128-158). -/
def pgut_argument (c : Char) (arg : Option String) : M Bool := fun w =>
  if c = 'q' then ⟨[], .ok true, { w with quiet := true }⟩
  else if c = 'v' then ⟨[], .ok true, { w with verbose := true }⟩
  else if c = 'a' then ⟨[], .ok true, { w with alldb := true }⟩
  else if c = 't' then ⟨[], .ok true, { w with table := assign_option arg }⟩
  else if c = 'n' then ⟨[], .ok true, { w with orderby := assign_option (some "") }⟩
  else if c = 'o' then ⟨[], .ok true, { w with orderby := assign_option arg }⟩
  else if c = 'Z' then ⟨[], .ok true, { w with analyze := false }⟩
  else ⟨[], .ok false, w⟩

/-- The state at program start: the initial values of the file-scope
variables (lines 95-103 and 124-126), no connection yet. -/
def initial_world (server_version : Nat) (replies : List PGresult) : World :=
  { replies := replies, connection := none, server_version := server_version,
    verbose := false, quiet := false, analyze := true, alldb := false,
    table := none, orderby := none, current_table := none }

/-! ## Vocabulary of the statements -/

/-- The replies recorded in a list of events, in order. -/
def replies_of : List Event → List PGresult
  | [] => []
  | .exec _ _ _ (some r) :: es => r :: replies_of es
  | _ :: es => replies_of es

/-- Whether the event is a statement sent at source line `l`. -/
def Event.at_line (l : Nat) : Event → Bool
  | .exec l' _ _ _ => l' == l
  | _ => false

/-- Whether the event, when it is a statement, was sent at one of the source lines `S`. -/
def Event.in_lines (S : List Nat) : Event → Bool
  | .exec l _ _ _ => decide (l ∈ S)
  | _ => true

/-- Whether the event is a statement sent to the server. -/
def Event.is_statement : Event → Bool
  | .exec _ _ _ _ => true
  | _ => false

/-- A piece of the driver that sends statements only at the source lines `S`. -/
structure Lines {α : Type} (S : List Nat) (m : M α) : Prop where
  sub : ∀ w, ∀ e ∈ (m w).events, e.in_lines S = true

/-- A piece of the driver that changes nothing of the state but the pending replies. -/
structure Frame {α : Type} (m : M α) : Prop where
  same : ∀ w, (m w).world = { w with replies := (m w).world.replies }

/-- The round-trip of `apply_log table count` answered by `reply`. -/
def apply_event (table : reorg_table) (count : Nat) (reply : PGresult) : Event :=
  .exec 374 (some "SELECT reorg.reorg_apply($1, $2, $3, $4, $5, $6)")
    [table.sql_peek, table.sql_insert, table.sql_delete, table.sql_update, table.sql_pop,
      some (utoa count)] (some reply)

/-- The round-trip of the alive-query of line 520 for the token `vxid`, answered by `reply`. -/
def alive_event (server_version : Nat) (vxid : String) (reply : PGresult) : Event :=
  .exec 520 (some (SQL_XID_ALIVE server_version)) [some vxid] (some reply)

/-- The count `apply_log` returns when the server answers `reply`, if it returns. -/
def applied_count (reply : PGresult) : Option Int :=
  if reply.succeeded then (PQgetvalue reply 0 0).map atoi else none

/-- An iteration of the catch-up loop after which the loop goes round again:
either `apply_log` returned a count greater than 0 and nothing else happened,
or it did not, the alive-query returned at least one row and the driver slept
one second. -/
def catch_up_continues (table : reorg_table) (server_version : Nat) (vxid : String)
    (it : List Event) : Prop :=
  ∃ r n, applied_count r = some n ∧
    ((n > 0 ∧ it = [apply_event table APPLY_COUNT r]) ∨
     (¬ n > 0 ∧ ∃ q, q.succeeded = true ∧ PQntuples q > 0 ∧
        it = [apply_event table APPLY_COUNT r, alive_event server_version vxid q, .sleep 1]))

/-- The iteration of the catch-up loop that leaves the loop: `apply_log`
returned a count not greater than 0 and the alive-query returned no row. -/
def catch_up_exits (table : reorg_table) (server_version : Nat) (vxid : String)
    (it : List Event) : Prop :=
  ∃ r n q, applied_count r = some n ∧ ¬ n > 0 ∧ q.succeeded = true ∧ PQntuples q = 0 ∧
    it = [apply_event table APPLY_COUNT r, alive_event server_version vxid q]

/-- The round-trip of the `BEGIN` of a lock attempt (line 542), answered by `reply`. -/
def lock_begin_event (reply : PGresult) : Event :=
  .exec 542 (some "BEGIN ISOLATION LEVEL READ COMMITTED") [] (some reply)

/-- The round-trip of the `lock_table` script (line 543), answered by `reply`. -/
def lock_event (table : reorg_table) (reply : PGresult) : Event :=
  .exec 543 table.lock_table [] (some reply)

/-- A lock attempt refused with `lock_not_available`: rolled back, followed by a
sleep of one second. -/
def lock_retry (table : reorg_table) (it : List Event) : Prop :=
  ∃ b r c, b.succeeded = true ∧ r.status ≠ .PGRES_COMMAND_OK ∧
    r.sqlstate = some SQLSTATE_LOCK_NOT_AVAILABLE ∧ c.succeeded = true ∧
    it = [lock_begin_event b, lock_event table r, .exec 553 (some "ROLLBACK") [] (some c),
      .sleep 1]

/-- A lock attempt that is granted: nothing is sent after the `lock_table` script. -/
def lock_granted (table : reorg_table) (it : List Event) : Prop :=
  ∃ b r, b.succeeded = true ∧ r.status = .PGRES_COMMAND_OK ∧
    it = [lock_begin_event b, lock_event table r]

/-- A lock attempt that fails with an error other than `lock_not_available`:
the message is printed and nothing more is sent. -/
def lock_fatal (table : reorg_table) (it : List Event) : Prop :=
  ∃ b r s, b.succeeded = true ∧ r.status ≠ .PGRES_COMMAND_OK ∧ r.sqlstate = some s ∧
    s ≠ SQLSTATE_LOCK_NOT_AVAILABLE ∧
    it = [lock_begin_event b, lock_event table r, .stdout r.errorMessage]

/-- The last attempt of a lock loop that ends with result `res`. -/
def lock_last (table : reorg_table) (res : Res Unit) (it : List Event) : Prop :=
  (res = .ok () ∧ lock_granted table it) ∨ (res = .halt (.exit 1) ∧ lock_fatal table it)

/-- The statements of phase 2 from the snapshot query on (lines 464-471), for
the server version `ver`. -/
def copy_tuples_tail (table : reorg_table) (ver : Nat) : M String := do
  let res ← execute 464 (some (SQL_XID_SNAPSHOT ver)) []
  let vxid ← (match PQgetvalue res 0 0 with
    | none => halt (.crash 465)
    | some v => pure v)
  command 467 table.delete_log []
  command 468 table.create_table []
  command 470 (some ("SELECT reorg.disable_autovacuum('reorg.table_" ++ utoa table.target_oid
    ++ "')")) []
  command 471 (some "COMMIT") []
  pure vxid

/-- The statements of phase 2 before the snapshot query (lines 459-463), for
the server version `ver`. -/
def copy_tuples_head (orderby : Option String) (ver : Nat) : M Unit := do
  command 459 (some "BEGIN ISOLATION LEVEL SERIALIZABLE") []
  command 461
    (some "SELECT set_config('work_mem', current_setting('maintenance_work_mem'), true)") []
  if ver ≥ 80300 && orderby_is_empty orderby then
    command 463 (some "SET LOCAL synchronize_seqscans = off") []

/-- The descriptor made of row `i` of the catalog probe, with `create_table`
as its shadow-table script: every other field is the column of the row. -/
def descriptor_of_row (res : PGresult) (i : Nat) (create_table : Option String) :
    reorg_table :=
  { target_name := getstr res i 0, target_oid := getoid res i 1,
    target_toast := getoid res i 2, target_tidx := getoid res i 3,
    pkid := getoid res i 4, ckid := getoid res i 5,
    create_pktype := getstr res i 6, create_log := getstr res i 7,
    create_trigger := getstr res i 8, create_table := create_table,
    delete_log := getstr res i 10, lock_table := getstr res i 11,
    sql_peek := getstr res i 13, sql_insert := getstr res i 14,
    sql_delete := getstr res i 15, sql_update := getstr res i 16,
    sql_pop := getstr res i 17 }

/-- A `BEGIN` sent by the driver: one of its five `BEGIN` statements (lines
426, 459, 542, 577, 593). -/
def Event.is_begin : Event → Bool
  | .exec l q p _ =>
    decide (l ∈ [426, 459, 542, 577, 593]) &&
      (decide (q = some "BEGIN ISOLATION LEVEL READ COMMITTED") ||
        decide (q = some "BEGIN ISOLATION LEVEL SERIALIZABLE")) &&
      decide (p = [])
  | _ => false

/-- A `COMMIT` (lines 444, 471, 569, 580, 597) or the `ROLLBACK` of a refused
lock attempt (line 553) sent by the driver. -/
def Event.is_end : Event → Bool
  | .exec l q p _ =>
    ((decide (l ∈ [444, 471, 569, 580, 597]) && decide (q = some "COMMIT")) ||
      (decide (l = 553) && decide (q = some "ROLLBACK"))) && decide (p = [])
  | _ => false

/-- A statement of phase 3 (the index-list query of line 480, a `CREATE INDEX`
of line 504) or of phase 4 (`apply_log` with the limit `APPLY_COUNT`, the
alive-query of line 520). -/
def Event.in_phase_3_or_4 : Event → Bool
  | .exec l _ p _ =>
    decide (l = 480) || decide (l = 504) || decide (l = 520) ||
      (decide (l = 374) && decide (p.getLast? = some (some (utoa APPLY_COUNT))))
  | _ => false

/-- One step of the transaction tracker: `inside` tells whether a transaction
opened by the driver is open.  A `BEGIN` must come when none is open, a
`COMMIT` or `ROLLBACK` when one is; any other statement must come inside a
transaction, except that the statements selected by `auto` must come outside.
`none` is a violation. -/
def txn_step (auto : Event → Bool) (inside : Bool) (e : Event) : Option Bool :=
  if e.is_begin then (if inside then none else some true)
  else if e.is_end then (if inside then some false else none)
  else if e.is_statement then
    (if auto e then (if inside then none else some false)
     else (if inside then some true else none))
  else some inside

/-- The transaction tracker run over a list of events. -/
def txn_run (auto : Event → Bool) : Bool → List Event → Option Bool
  | inside, [] => some inside
  | inside, e :: es =>
    match txn_step auto inside e with
    | none => none
    | some s => txn_run auto s es

/-- Every statement of `evs` is sent between a `BEGIN` and its `COMMIT` or
`ROLLBACK`: the events are a sequence of `BEGIN ... COMMIT` and
`BEGIN ... ROLLBACK` blocks with no statement outside. -/
def bracketed (evs : List Event) : Bool :=
  txn_run (fun _ => false) false evs == some false

/-- The same, except that the statements selected by `auto` are sent outside
any transaction opened by the driver. -/
def bracketed_but (auto : Event → Bool) (evs : List Event) : Bool :=
  txn_run auto false evs == some false

/-- A piece of the driver that, when it returns, has taken the transaction
tracker from state `s` to state `t`. -/
structure Txn {α : Type} (auto : Event → Bool) (s t : Bool) (m : M α) : Prop where
  run : ∀ w a, (m w).res = .ok a → txn_run auto s (m w).events = some t

/-! ## Example data -/

/-- A reply `PGRES_COMMAND_OK`. -/
def reply_command_ok : PGresult := ⟨.PGRES_COMMAND_OK, none, "", []⟩

/-- A reply `PGRES_TUPLES_OK` with the rows `rows`. -/
def reply_tuples (rows : List (List (Option String))) : PGresult :=
  ⟨.PGRES_TUPLES_OK, none, "", rows⟩

/-- An error reply with SQLSTATE `state`. -/
def reply_error (state : String) : PGresult :=
  ⟨.PGRES_FATAL_ERROR, some state, "ERROR\n", []⟩

/-- A descriptor used in the examples. -/
def example_table : reorg_table :=
  { target_name := some "t", target_oid := 16384, target_toast := 0, target_tidx := 0,
    pkid := 16390, ckid := 16391, create_pktype := some "CREATE TYPE pk",
    create_log := some "CREATE TABLE log", create_trigger := some "CREATE TRIGGER z",
    create_table := some "CREATE TABLE tbl AS SELECT ORDER BY id",
    delete_log := some "DELETE FROM log", lock_table := some "LOCK TABLE t NOWAIT",
    sql_peek := some "peek", sql_insert := some "insert", sql_delete := some "delete",
    sql_update := some "update", sql_pop := some "pop" }

/-- Replies of a server to a complete run of `reorg_one_table`: no conflicting
trigger, one index, one batch of applied rows, one wait for an old
transaction, one refused lock attempt. -/
def example_replies : List PGresult :=
  [ -- phase 1
    reply_command_ok, reply_tuples [], reply_command_ok, reply_command_ok, reply_command_ok,
    reply_tuples [[some ""]], reply_command_ok,
    -- phase 2
    reply_command_ok, reply_tuples [[some ""]], reply_tuples [[some "{1/2}"]],
    reply_command_ok, reply_command_ok, reply_tuples [[some ""]], reply_command_ok,
    -- phase 3
    reply_tuples [[some "16400", some "CREATE INDEX i ON tbl (id)"]], reply_command_ok,
    -- phase 4
    reply_tuples [[some "5"]], reply_tuples [[some "0"]], reply_tuples [[some "1"]],
    reply_tuples [[some "0"]], reply_tuples [],
    -- phase 5
    reply_command_ok, reply_error "55P03", reply_command_ok,
    reply_command_ok, reply_command_ok, reply_tuples [[some "0"]], reply_tuples [[some ""]],
    reply_command_ok,
    -- phase 6
    reply_command_ok, reply_tuples [[some ""]], reply_command_ok,
    -- phase 7
    reply_command_ok, reply_command_ok, reply_command_ok ]

/-- The complete run of the examples. -/
def example_run : Out Unit :=
  reorg_one_table example_table none 3 (initial_world 80400 example_replies)

/-- A reply of the catalog probe with one row: a table with a primary key and
a cluster key on `id`. -/
def example_probe : PGresult :=
  reply_tuples [[some "t", some "16384", some "0", some "0", some "16390", some "16391",
    some "CREATE TYPE pk", some "CREATE TABLE log", some "CREATE TRIGGER z",
    some "CREATE TABLE tbl AS SELECT", some "DELETE FROM log", some "LOCK TABLE t NOWAIT",
    some "id", some "peek", some "insert", some "delete", some "update", some "pop"]]

/-! ## The driver monad: computation rules -/

@[simp] theorem prepend_events {α : Type} (evs : List Event) (o : Out α) :
    (o.prepend evs).events = evs ++ o.events := rfl

@[simp] theorem prepend_res {α : Type} (evs : List Event) (o : Out α) :
    (o.prepend evs).res = o.res := rfl

@[simp] theorem prepend_world {α : Type} (evs : List Event) (o : Out α) :
    (o.prepend evs).world = o.world := rfl

@[simp] theorem prepend_nil {α : Type} (o : Out α) : o.prepend [] = o := rfl

@[simp] theorem prepend_mk {α : Type} (evs es : List Event) (r : Res α) (w : World) :
    (Out.mk es r w).prepend evs = ⟨evs ++ es, r, w⟩ := rfl

theorem prepend_prepend {α : Type} (e1 e2 : List Event) (o : Out α) :
    (o.prepend e2).prepend e1 = o.prepend (e1 ++ e2) := by
  simp [Out.prepend]

theorem bind_apply {α β : Type} (x : M α) (f : α → M β) (w : World) :
    (x >>= f) w = match (x w).res with
      | .ok a => (f a (x w).world).prepend (x w).events
      | .halt h => ⟨(x w).events, .halt h, (x w).world⟩ := rfl

theorem bind_of_ok {α β : Type} {x : M α} {f : α → M β} {w : World} {a : α}
    (h : (x w).res = .ok a) : (x >>= f) w = (f a (x w).world).prepend (x w).events := by
  rw [bind_apply, h]

theorem bind_of_halt {α β : Type} {x : M α} {f : α → M β} {w : World} {h : Halt}
    (hx : (x w).res = .halt h) : (x >>= f) w = ⟨(x w).events, .halt h, (x w).world⟩ := by
  rw [bind_apply, hx]

@[simp] theorem pure_apply {α : Type} (a : α) (w : World) :
    (pure a : M α) w = ⟨[], .ok a, w⟩ := rfl

@[simp] theorem pure_bind_apply {α β : Type} (a : α) (f : α → M β) (w : World) :
    (pure a >>= f) w = f a w := rfl

@[simp] theorem halt_apply {α : Type} (h : Halt) (w : World) :
    (halt h : M α) w = ⟨[], .halt h, w⟩ := rfl

@[simp] theorem halt_bind_apply {α β : Type} (h : Halt) (f : α → M β) (w : World) :
    (halt h >>= f) w = ⟨[], .halt h, w⟩ := rfl

@[simp] theorem elog_apply {α : Type} (l : Nat) (msg : String) (w : World) :
    (elog_ERROR l msg : M α) w = ⟨[], .halt (.error l msg), w⟩ := rfl

@[simp] theorem elog_bind_apply {α β : Type} (l : Nat) (msg : String) (f : α → M β)
    (w : World) : (elog_ERROR l msg >>= f) w = ⟨[], .halt (.error l msg), w⟩ := rfl

@[simp] theorem get_world_apply (w : World) : get_world w = ⟨[], .ok w, w⟩ := rfl

@[simp] theorem get_world_bind_apply {β : Type} (f : World → M β) (w : World) :
    (get_world >>= f) w = f w w := rfl

@[simp] theorem emit_apply (e : Event) (w : World) : emit e w = ⟨[e], .ok (), w⟩ := rfl

@[simp] theorem emit_bind_apply {β : Type} (e : Event) (f : Unit → M β) (w : World) :
    (emit e >>= f) w = (f () w).prepend [e] := rfl

@[simp] theorem sleep_apply (n : Nat) (w : World) : sleep n w = ⟨[.sleep n], .ok (), w⟩ := rfl

@[simp] theorem sleep_bind_apply {β : Type} (n : Nat) (f : Unit → M β) (w : World) :
    (sleep n >>= f) w = (f () w).prepend [.sleep n] := rfl

@[simp] theorem set_current_table_apply (t : Option reorg_table) (w : World) :
    set_current_table t w = ⟨[], .ok (), { w with current_table := t }⟩ := rfl

@[simp] theorem set_current_table_bind_apply {β : Type} (t : Option reorg_table)
    (f : Unit → M β) (w : World) :
    (set_current_table t >>= f) w = f () { w with current_table := t } := rfl

theorem execute_elevel_apply (l : Nat) (q : Option String) (p : List (Option String))
    (lvl : Elevel) (w : World) :
    execute_elevel l q p lvl w =
      match w.replies with
      | [] => ⟨[.exec l q p none], .halt .blocked, w⟩
      | r :: rs =>
        if r.succeeded || lvl != .ERROR then
          ⟨[.exec l q p (some r)], .ok r, { w with replies := rs }⟩
        else
          ⟨[.exec l q p (some r)], .halt (.error l r.errorMessage), { w with replies := rs }⟩ :=
  rfl

theorem execute_elevel_bind_apply {β : Type} (l : Nat) (q : Option String)
    (p : List (Option String)) (lvl : Elevel) (f : PGresult → M β) (w : World) :
    (execute_elevel l q p lvl >>= f) w =
      match w.replies with
      | [] => ⟨[.exec l q p none], .halt .blocked, w⟩
      | r :: rs =>
        if r.succeeded || lvl != .ERROR then
          (f r { w with replies := rs }).prepend [.exec l q p (some r)]
        else
          ⟨[.exec l q p (some r)], .halt (.error l r.errorMessage),
            { w with replies := rs }⟩ := by
  rw [bind_apply, execute_elevel_apply]
  rcases w.replies with _ | ⟨r, rs⟩
  · rfl
  · by_cases h : (r.succeeded || lvl != .ERROR) = true
    · simp only [h, if_true]
    · simp only [h]; rfl

theorem execute_apply (l : Nat) (q : Option String) (p : List (Option String)) (w : World) :
    execute l q p w =
      match w.replies with
      | [] => ⟨[.exec l q p none], .halt .blocked, w⟩
      | r :: rs =>
        if r.succeeded then
          ⟨[.exec l q p (some r)], .ok r, { w with replies := rs }⟩
        else
          ⟨[.exec l q p (some r)], .halt (.error l r.errorMessage),
            { w with replies := rs }⟩ := by
  unfold execute
  rw [execute_elevel_apply]
  rcases w.replies with _ | ⟨r, rs⟩ <;> simp

theorem execute_bind_apply {β : Type} (l : Nat) (q : Option String)
    (p : List (Option String)) (f : PGresult → M β) (w : World) :
    (execute l q p >>= f) w =
      match w.replies with
      | [] => ⟨[.exec l q p none], .halt .blocked, w⟩
      | r :: rs =>
        if r.succeeded then
          (f r { w with replies := rs }).prepend [.exec l q p (some r)]
        else
          ⟨[.exec l q p (some r)], .halt (.error l r.errorMessage),
            { w with replies := rs }⟩ := by
  unfold execute
  rw [execute_elevel_bind_apply]
  rcases w.replies with _ | ⟨r, rs⟩ <;> simp

theorem command_apply (l : Nat) (q : Option String) (p : List (Option String)) (w : World) :
    command l q p w =
      match w.replies with
      | [] => ⟨[.exec l q p none], .halt .blocked, w⟩
      | r :: rs =>
        if r.succeeded then
          ⟨[.exec l q p (some r)], .ok (), { w with replies := rs }⟩
        else
          ⟨[.exec l q p (some r)], .halt (.error l r.errorMessage),
            { w with replies := rs }⟩ := by
  unfold command
  rw [execute_bind_apply]
  rcases w.replies with _ | ⟨r, rs⟩
  · rfl
  · simp only [pure_apply]; rfl

theorem command_bind_apply {β : Type} (l : Nat) (q : Option String)
    (p : List (Option String)) (f : Unit → M β) (w : World) :
    (command l q p >>= f) w =
      match w.replies with
      | [] => ⟨[.exec l q p none], .halt .blocked, w⟩
      | r :: rs =>
        if r.succeeded then
          (f () { w with replies := rs }).prepend [.exec l q p (some r)]
        else
          ⟨[.exec l q p (some r)], .halt (.error l r.errorMessage),
            { w with replies := rs }⟩ := by
  rw [bind_apply, command_apply]
  rcases w.replies with _ | ⟨r, rs⟩
  · rfl
  · by_cases h : r.succeeded = true
    · simp only [h, if_true]
    · simp only [h]; rfl

theorem bind_assoc_apply {α β γ : Type} (x : M α) (f : α → M β) (g : β → M γ) (w : World) :
    ((x >>= f) >>= g) w = (x >>= fun a => f a >>= g) w := by
  rcases hx : (x w).res with a | h
  · rw [bind_of_ok (x := x) hx]
    rcases hf : (f a (x w).world).res with b | h
    · have h1 : ((x >>= f) w).res = .ok b := by rw [bind_of_ok hx]; simpa using hf
      rw [bind_of_ok h1, bind_of_ok hx, bind_of_ok hf]
      simp [prepend_prepend]
    · have h1 : ((x >>= f) w).res = .halt h := by rw [bind_of_ok hx]; simpa using hf
      rw [bind_of_halt h1, bind_of_ok hx, bind_of_halt hf]
      simp
  · have h1 : ((x >>= f) w).res = .halt h := by rw [bind_of_halt hx]
    rw [bind_of_halt h1, bind_of_halt hx, bind_of_halt hx]

theorem bind_assoc_M {α β γ : Type} (x : M α) (f : α → M β) (g : β → M γ) :
    (x >>= f) >>= g = x >>= fun a => f a >>= g :=
  funext (bind_assoc_apply x f g)

theorem apply_log_apply (table : reorg_table) (count : Nat) (w : World) :
    apply_log table count w =
      match w.replies with
      | [] => ⟨[.exec 374 (some "SELECT reorg.reorg_apply($1, $2, $3, $4, $5, $6)")
          [table.sql_peek, table.sql_insert, table.sql_delete, table.sql_update, table.sql_pop,
            some (utoa count)] none], .halt .blocked, w⟩
      | r :: rs =>
        if r.succeeded then
          match PQgetvalue r 0 0 with
          | none => ⟨[apply_event table count r], .halt (.crash 376), { w with replies := rs }⟩
          | some v => ⟨[apply_event table count r], .ok (atoi v), { w with replies := rs }⟩
        else
          ⟨[apply_event table count r], .halt (.error 374 r.errorMessage),
            { w with replies := rs }⟩ := by
  unfold apply_log
  simp only [execute_bind_apply]
  rcases w.replies with _ | ⟨r, rs⟩
  · rfl
  · by_cases h : r.succeeded = true
    · simp only [h, if_true]
      rcases PQgetvalue r 0 0 with _ | v <;> simp [apply_event]
    · simp only [h]; simp [apply_event]

theorem apply_log_bind_apply {β : Type} (table : reorg_table) (count : Nat)
    (f : Int → M β) (w : World) :
    (apply_log table count >>= f) w =
      match w.replies with
      | [] => ⟨[.exec 374 (some "SELECT reorg.reorg_apply($1, $2, $3, $4, $5, $6)")
          [table.sql_peek, table.sql_insert, table.sql_delete, table.sql_update, table.sql_pop,
            some (utoa count)] none], .halt .blocked, w⟩
      | r :: rs =>
        if r.succeeded then
          match PQgetvalue r 0 0 with
          | none => ⟨[apply_event table count r], .halt (.crash 376), { w with replies := rs }⟩
          | some v => (f (atoi v) { w with replies := rs }).prepend [apply_event table count r]
        else
          ⟨[apply_event table count r], .halt (.error 374 r.errorMessage),
            { w with replies := rs }⟩ := by
  rw [bind_apply, apply_log_apply]
  rcases w.replies with _ | ⟨r, rs⟩
  · rfl
  · by_cases h : r.succeeded = true
    · simp only [h, if_true]
      rcases PQgetvalue r 0 0 with _ | v <;> rfl
    · simp only [h]; rfl

/-! ## The catch-up loop (phase 4) -/

theorem catch_up_sound (table : reorg_table) (vxid : String) (fuel : Nat) :
    ∀ w : World, (apply_until_done table vxid fuel w).res = .ok () →
      ∃ (iters : List (List Event)) (last : List Event), iters.length < fuel ∧
        (∀ it ∈ iters, catch_up_continues table w.server_version vxid it) ∧
        catch_up_exits table w.server_version vxid last ∧
        (apply_until_done table vxid fuel w).events = iters.flatten ++ last ∧
        w.replies = replies_of (apply_until_done table vxid fuel w).events
          ++ (apply_until_done table vxid fuel w).world.replies := by
  induction fuel with
  | zero => intro w h; simp [apply_until_done, halt] at h
  | succ fuel ih =>
    intro w h
    rcases hw : w.replies with _ | ⟨r, rs⟩
    · simp [apply_until_done, apply_log_bind_apply, execute_bind_apply, command_bind_apply, Out.prepend, hw] at h
    · by_cases hs : r.succeeded = true
      · rcases hv : PQgetvalue r 0 0 with _ | v
        · simp [apply_until_done, apply_log_bind_apply, execute_bind_apply, command_bind_apply, Out.prepend, hw, hs, hv, halt] at h
        · by_cases hp : atoi v > 0
          · have hstep : apply_until_done table vxid (fuel + 1) w =
                ⟨apply_event table APPLY_COUNT r ::
                  (apply_until_done table vxid fuel { w with replies := rs }).events,
                 (apply_until_done table vxid fuel { w with replies := rs }).res,
                 (apply_until_done table vxid fuel { w with replies := rs }).world⟩ := by
              simp [apply_until_done, apply_log_bind_apply, execute_bind_apply, command_bind_apply, Out.prepend, hw, hs, hv, hp,
                apply_event]
            rw [hstep] at h ⊢
            simp only at h ⊢
            obtain ⟨iters, last, hlen, hit, hlast, hev, hrep⟩ := ih _ h
            refine ⟨[apply_event table APPLY_COUNT r] :: iters, last, by simpa using hlen, ?_,
              hlast, ?_, ?_⟩
            · intro it hmem
              rcases List.mem_cons.mp hmem with rfl | hmem
              · exact ⟨r, atoi v, by simp [applied_count, hs, hv], Or.inl ⟨hp, rfl⟩⟩
              · exact hit it hmem
            · simp [hev]
            · simp only at hrep
              simp [replies_of, apply_event, ← hrep]
          · rcases hrs : rs with _ | ⟨q, qs⟩
            · simp [apply_until_done, apply_log_bind_apply, execute_bind_apply, command_bind_apply, Out.prepend, hw, hs, hv, hp,
                hrs, get_world] at h
            · by_cases hq : q.succeeded = true
              · by_cases hn : PQntuples q > 0
                · have hstep : apply_until_done table vxid (fuel + 1) w =
                      ⟨apply_event table APPLY_COUNT r :: alive_event w.server_version vxid q ::
                        .sleep 1 ::
                        (apply_until_done table vxid fuel { w with replies := qs }).events,
                       (apply_until_done table vxid fuel { w with replies := qs }).res,
                       (apply_until_done table vxid fuel { w with replies := qs }).world⟩ := by
                    simp [apply_until_done, apply_log_bind_apply, execute_bind_apply, command_bind_apply, Out.prepend, hw, hs,
                      hv, hp, hrs, hq, hn, get_world, sleep, emit, apply_event, alive_event]
                  rw [hstep] at h ⊢
                  simp only at h ⊢
                  obtain ⟨iters, last, hlen, hit, hlast, hev, hrep⟩ := ih _ h
                  refine ⟨[apply_event table APPLY_COUNT r, alive_event w.server_version vxid q,
                    .sleep 1] :: iters, last, by simpa using hlen, ?_, hlast, ?_, ?_⟩
                  · intro it hmem
                    rcases List.mem_cons.mp hmem with rfl | hmem
                    · exact ⟨r, atoi v, by simp [applied_count, hs, hv],
                        Or.inr ⟨hp, q, hq, hn, rfl⟩⟩
                    · exact hit it hmem
                  · simp [hev]
                  · simp only at hrep
                    simp [replies_of, apply_event, alive_event, ← hrep]
                · have hstep : apply_until_done table vxid (fuel + 1) w =
                      ⟨[apply_event table APPLY_COUNT r, alive_event w.server_version vxid q],
                       .ok (), { w with replies := qs }⟩ := by
                    simp [apply_until_done, apply_log_bind_apply, execute_bind_apply, command_bind_apply, Out.prepend, hw, hs,
                      hv, hp, hrs, hq, hn, get_world, apply_event, alive_event]
                  rw [hstep]
                  refine ⟨[], _, by simp, by simp, ⟨r, atoi v, q, by simp [applied_count, hs, hv],
                    hp, hq, by omega, rfl⟩, by simp, ?_⟩
                  simp [replies_of, apply_event, alive_event]
              · simp [apply_until_done, apply_log_bind_apply, execute_bind_apply, command_bind_apply, Out.prepend, hw, hs, hv,
                  hp, hrs, hq, get_world] at h
      · simp [apply_until_done, apply_log_bind_apply, execute_bind_apply, command_bind_apply, Out.prepend, hw, hs] at h


theorem catch_up_complete (table : reorg_table) (vxid : String)
    (iters : List (List Event)) :
    ∀ (fuel : Nat) (w : World) (last : List Event) (rest : List PGresult),
      iters.length < fuel →
      (∀ it ∈ iters, catch_up_continues table w.server_version vxid it) →
      catch_up_exits table w.server_version vxid last →
      w.replies = replies_of (iters.flatten ++ last) ++ rest →
      (apply_until_done table vxid fuel w).res = .ok () ∧
      (apply_until_done table vxid fuel w).events = iters.flatten ++ last ∧
      (apply_until_done table vxid fuel w).world.replies = rest := by
  induction iters with
  | nil =>
    intro fuel w last rest hlen _ hlast hrep
    obtain ⟨r, n, q, hr, hn, hq, hq0, rfl⟩ := hlast
    obtain ⟨fuel, rfl⟩ : ∃ f, fuel = f + 1 := ⟨fuel - 1, by simp at hlen; omega⟩
    simp only [applied_count] at hr
    split at hr
    · rename_i hs
      rcases hv : PQgetvalue r 0 0 with _ | v
      · simp [hv] at hr
      · simp [hv] at hr
        subst hr
        simp [replies_of, apply_event, alive_event] at hrep
        simp [apply_until_done, apply_log_bind_apply, execute_bind_apply, command_bind_apply, Out.prepend, hrep, hs, hv, hn,
          hq, hq0, get_world, apply_event, alive_event]
    · simp at hr
  | cons it iters ih =>
    intro fuel w last rest hlen hit hlast hrep
    obtain ⟨fuel, rfl⟩ : ∃ f, fuel = f + 1 := ⟨fuel - 1, by simp at hlen; omega⟩
    have hlen2 : iters.length < fuel := by simpa using hlen
    obtain ⟨r, n, hr, hcase⟩ := hit it (List.mem_cons_self _ _)
    have hit2 : ∀ it ∈ iters, catch_up_continues table w.server_version vxid it :=
      fun it h => hit it (List.mem_cons_of_mem _ h)
    simp only [applied_count] at hr
    split at hr
    · rename_i hs
      rcases hv : PQgetvalue r 0 0 with _ | v
      · simp [hv] at hr
      · simp [hv] at hr
        subst hr
        rcases hcase with ⟨hp, rfl⟩ | ⟨hp, q, hq, hn, rfl⟩
        · simp [replies_of, apply_event] at hrep
          obtain ⟨h1, h2, h3⟩ := ih fuel { w with replies := replies_of (iters.flatten ++ last) ++ rest }
            last rest hlen2 hit2 hlast rfl
          simp [apply_until_done, apply_log_bind_apply, execute_bind_apply, command_bind_apply, Out.prepend, hrep, hs, hv, hp,
            apply_event, h1, h2, h3]
        · simp [replies_of, apply_event, alive_event] at hrep
          obtain ⟨h1, h2, h3⟩ := ih fuel { w with replies := replies_of (iters.flatten ++ last) ++ rest }
            last rest hlen2 hit2 hlast rfl
          simp [apply_until_done, apply_log_bind_apply, execute_bind_apply, command_bind_apply, Out.prepend, hrep, hs, hv, hp,
            hq, hn, get_world, sleep, emit, apply_event, alive_event, h1, h2, h3]
    · simp at hr

/-! ## The lock loop (phase 5) -/

theorem lock_loop_sound (table : reorg_table) (fuel : Nat) :
    ∀ w : World, ((lock_loop table fuel w).res = .ok () ∨
        (lock_loop table fuel w).res = .halt (.exit 1)) →
      ∃ (attempts : List (List Event)) (last : List Event), attempts.length < fuel ∧
        (∀ it ∈ attempts, lock_retry table it) ∧
        lock_last table (lock_loop table fuel w).res last ∧
        (lock_loop table fuel w).events = attempts.flatten ++ last ∧
        w.replies = replies_of (lock_loop table fuel w).events
          ++ (lock_loop table fuel w).world.replies := by
  induction fuel with
  | zero => intro w h; simp [lock_loop, halt] at h
  | succ fuel ih =>
    intro w h
    rcases hw : w.replies with _ | ⟨b, rs⟩
    · simp [lock_loop, command_bind_apply, execute_elevel_bind_apply, Out.prepend, hw] at h
    · by_cases hb : b.succeeded = true
      · rcases hrs : rs with _ | ⟨r, qs⟩
        · simp [lock_loop, command_bind_apply, execute_elevel_bind_apply, Out.prepend, hw, hb, hrs] at h
        · by_cases hr : r.status = .PGRES_COMMAND_OK
          · have hstep : lock_loop table (fuel + 1) w =
                ⟨[lock_begin_event b, lock_event table r], .ok (), { w with replies := qs }⟩ := by
              simp [lock_loop, command_bind_apply, execute_elevel_bind_apply, Out.prepend, hw, hb, hrs, hr,
                lock_begin_event, lock_event]
            rw [hstep]
            refine ⟨[], _, by simp, by simp, Or.inl ⟨rfl, b, r, hb, hr, rfl⟩, by simp, ?_⟩
            simp [replies_of, lock_begin_event, lock_event]
          · rcases hst : r.sqlstate with _ | s
            · simp [lock_loop, command_bind_apply, execute_elevel_bind_apply, Out.prepend, hw, hb, hrs, hr,
                sqlstate_equals, PQresultErrorField_SQLSTATE, hst, halt] at h
            · by_cases hs : s = SQLSTATE_LOCK_NOT_AVAILABLE
              · rcases hqs : qs with _ | ⟨c, cs⟩
                · simp [lock_loop, command_bind_apply, execute_elevel_bind_apply, Out.prepend, hw, hb, hrs, hr,
                    sqlstate_equals, PQresultErrorField_SQLSTATE, hst, hs, hqs] at h
                · by_cases hc : c.succeeded = true
                  · have hstep : lock_loop table (fuel + 1) w =
                        ⟨lock_begin_event b :: lock_event table r ::
                          .exec 553 (some "ROLLBACK") [] (some c) :: .sleep 1 ::
                          (lock_loop table fuel { w with replies := cs }).events,
                         (lock_loop table fuel { w with replies := cs }).res,
                         (lock_loop table fuel { w with replies := cs }).world⟩ := by
                      simp [lock_loop, command_bind_apply, execute_elevel_bind_apply, Out.prepend, hw, hb, hrs, hr,
                        sqlstate_equals, PQresultErrorField_SQLSTATE, hst, hs, hqs, hc, sleep,
                        emit, lock_begin_event, lock_event]
                    rw [hstep] at h ⊢
                    simp only at h ⊢
                    obtain ⟨attempts, last, hlen, hit, hlast, hev, hrep⟩ := ih _ h
                    refine ⟨[lock_begin_event b, lock_event table r,
                      .exec 553 (some "ROLLBACK") [] (some c), .sleep 1] :: attempts, last,
                      by simpa using hlen, ?_, hlast, ?_, ?_⟩
                    · intro it hmem
                      rcases List.mem_cons.mp hmem with rfl | hmem
                      · exact ⟨b, r, c, hb, hr, by rw [hst, hs], hc, rfl⟩
                      · exact hit it hmem
                    · simp [hev]
                    · simp only at hrep
                      simp [replies_of, lock_begin_event, lock_event, ← hrep]
                  · simp [lock_loop, command_bind_apply, execute_elevel_bind_apply, Out.prepend, hw, hb, hrs, hr,
                      sqlstate_equals, PQresultErrorField_SQLSTATE, hst, hs, hqs, hc] at h
              · have hstep : lock_loop table (fuel + 1) w =
                    ⟨[lock_begin_event b, lock_event table r, .stdout r.errorMessage],
                      .halt (.exit 1), { w with replies := qs }⟩ := by
                  simp [lock_loop, command_bind_apply, execute_elevel_bind_apply, Out.prepend, hw, hb, hrs, hr,
                    sqlstate_equals, PQresultErrorField_SQLSTATE, hst, hs, emit, halt,
                    lock_begin_event, lock_event]
                rw [hstep]
                refine ⟨[], _, by simp, by simp, Or.inr ⟨rfl, b, r, s, hb, hr, hst, hs, rfl⟩,
                  by simp, ?_⟩
                simp [replies_of, lock_begin_event, lock_event]
      · simp [lock_loop, command_bind_apply, execute_elevel_bind_apply, Out.prepend, hw, hb] at h

theorem lock_loop_complete (table : reorg_table) (attempts : List (List Event)) :
    ∀ (fuel : Nat) (w : World) (res : Res Unit) (last : List Event) (rest : List PGresult),
      attempts.length < fuel →
      (∀ it ∈ attempts, lock_retry table it) →
      lock_last table res last →
      w.replies = replies_of (attempts.flatten ++ last) ++ rest →
      (lock_loop table fuel w).res = res ∧
      (lock_loop table fuel w).events = attempts.flatten ++ last ∧
      (lock_loop table fuel w).world.replies = rest := by
  induction attempts with
  | nil =>
    intro fuel w res last rest hlen _ hlast hrep
    obtain ⟨fuel, rfl⟩ : ∃ f, fuel = f + 1 := ⟨fuel - 1, by simp at hlen; omega⟩
    rcases hlast with ⟨rfl, b, r, hb, hr, rfl⟩ | ⟨rfl, b, r, s, hb, hr, hst, hs, rfl⟩
    · simp [replies_of, lock_begin_event, lock_event] at hrep
      simp [lock_loop, command_bind_apply, execute_elevel_bind_apply, Out.prepend, hrep, hb, hr,
        lock_begin_event, lock_event]
    · simp [replies_of, lock_begin_event, lock_event] at hrep
      simp [lock_loop, command_bind_apply, execute_elevel_bind_apply, Out.prepend, hrep, hb, hr,
        sqlstate_equals, PQresultErrorField_SQLSTATE, hst, hs, emit, halt,
        lock_begin_event, lock_event]
  | cons it attempts ih =>
    intro fuel w res last rest hlen hit hlast hrep
    obtain ⟨fuel, rfl⟩ : ∃ f, fuel = f + 1 := ⟨fuel - 1, by simp at hlen; omega⟩
    have hlen2 : attempts.length < fuel := by simpa using hlen
    obtain ⟨b, r, c, hb, hr, hst, hc, rfl⟩ := hit it (List.mem_cons_self _ _)
    have hit2 : ∀ it ∈ attempts, lock_retry table it :=
      fun it h => hit it (List.mem_cons_of_mem _ h)
    simp [replies_of, lock_begin_event, lock_event] at hrep
    obtain ⟨h1, h2, h3⟩ := ih fuel
      { w with replies := replies_of (attempts.flatten ++ last) ++ rest } res last rest hlen2 hit2
      hlast rfl
    simp [lock_loop, command_bind_apply, execute_elevel_bind_apply, Out.prepend, hrep, hb, hr,
      sqlstate_equals, PQresultErrorField_SQLSTATE, hst, hc, sleep, emit,
      lock_begin_event, lock_event, h1, h2, h3]

/-! ## Source lines of the statements of each phase -/

theorem events_bind {α β : Type} (m : M α) (f : α → M β) (w : World) :
    ((m >>= f) w).events = (m w).events ++
      (match (m w).res with
        | .ok a => (f a (m w).world).events
        | .halt _ => []) := by
  rw [bind_apply]
  rcases (m w).res with a | h <;> simp

theorem lines_mono {α : Type} {S T : List Nat} {m : M α} (hST : ∀ l ∈ S, l ∈ T)
    (h : Lines S m) : Lines T m := by
  constructor
  intro w e he
  have := h.sub w e he
  cases e <;> simp_all [Event.in_lines]

theorem lines_of_no_events {α : Type} (S : List Nat) {m : M α}
    (h : ∀ w, (m w).events = []) : Lines S m := by
  constructor
  intro w e he
  rw [h w] at he
  simp at he

theorem lines_pure {α : Type} (S : List Nat) (a : α) : Lines S (pure a : M α) :=
  lines_of_no_events S (fun _ => rfl)

theorem lines_bind {α β : Type} {S : List Nat} {m : M α} {f : α → M β}
    (hm : Lines S m) (hf : ∀ a, Lines S (f a)) : Lines S (m >>= f) := by
  constructor
  intro w e he
  rw [events_bind] at he
  rcases List.mem_append.mp he with he | he
  · exact hm.sub w e he
  · rcases hr : (m w).res with a | h
    · rw [hr] at he; exact (hf a).sub _ e he
    · rw [hr] at he; simp at he

theorem lines_halt {α : Type} (S : List Nat) (h : Halt) : Lines S (halt h : M α) :=
  lines_of_no_events S (fun _ => rfl)

theorem lines_elog_ERROR {α : Type} (S : List Nat) (l : Nat) (msg : String) :
    Lines S (elog_ERROR l msg : M α) :=
  lines_of_no_events S (fun _ => rfl)

theorem lines_get_world (S : List Nat) : Lines S get_world :=
  lines_of_no_events S (fun _ => rfl)

theorem lines_set_current_table (S : List Nat) (t : Option reorg_table) :
    Lines S (set_current_table t) :=
  lines_of_no_events S (fun _ => rfl)

theorem lines_sleep (S : List Nat) (n : Nat) : Lines S (sleep n) := by
  constructor; intro w; simp [Event.in_lines]

theorem lines_emit_stdout (S : List Nat) (s : String) : Lines S (emit (.stdout s)) := by
  constructor; intro w; simp [Event.in_lines]

theorem lines_emit_stderr (S : List Nat) (s : String) : Lines S (emit (.stderr s)) := by
  constructor; intro w; simp [Event.in_lines]

theorem lines_reconnect (S : List Nat) : Lines S reconnect := by
  constructor; intro w; simp [PgReorg.reconnect, Event.in_lines]

theorem lines_disconnect (S : List Nat) : Lines S disconnect := by
  constructor; intro w; simp [PgReorg.disconnect, Event.in_lines]

theorem lines_execute_elevel {S : List Nat} {l : Nat} (hl : l ∈ S)
    (q : Option String) (p : List (Option String)) (lvl : Elevel) :
    Lines S (execute_elevel l q p lvl) := by
  constructor
  intro w
  rw [execute_elevel_apply]
  rcases w.replies with _ | ⟨r, rs⟩
  · simp [Event.in_lines, hl]
  · by_cases h : (r.succeeded || lvl != Elevel.ERROR) = true
    · simp only [h, if_true]; simp [Event.in_lines, hl]
    · simp only [h]; simp [Event.in_lines, hl]

theorem lines_execute {S : List Nat} {l : Nat} (hl : l ∈ S)
    (q : Option String) (p : List (Option String)) : Lines S (execute l q p) :=
  lines_execute_elevel hl q p _

theorem lines_command {S : List Nat} {l : Nat} (hl : l ∈ S)
    (q : Option String) (p : List (Option String)) : Lines S (command l q p) :=
  lines_bind (lines_execute hl q p) (fun _ => lines_pure S _)

theorem lines_apply_log {S : List Nat} (hl : 374 ∈ S) (table : reorg_table)
    (count : Nat) : Lines S (apply_log table count) := by
  unfold PgReorg.apply_log
  refine lines_bind (lines_execute hl _ _) (fun res => ?_)
  split
  · exact lines_halt _ _
  · exact lines_pure _ _

theorem setup_lines (table : reorg_table) :
    Lines [426, 434, 439, 440, 441, 443, 444] (setup table) := by
  unfold setup
  repeat (first
    | exact lines_command (by decide) _ _
    | exact lines_execute (by decide) _ _
    | exact lines_elog_ERROR _ _ _
    | exact lines_pure _ _
    | apply lines_bind
    | intro _
    | split
    | dsimp only)

theorem copy_tuples_lines (table : reorg_table) (orderby : Option String) :
    Lines [459, 461, 463, 464, 467, 468, 470, 471] (copy_tuples table orderby) := by
  unfold copy_tuples
  repeat (first
    | exact lines_command (by decide) _ _
    | exact lines_execute (by decide) _ _
    | exact lines_get_world _
    | exact lines_halt _ _
    | exact lines_pure _ _
    | apply lines_bind
    | intro _
    | split
    | dsimp only)

theorem create_indexes_loop_lines (res : PGresult) (n : Nat) :
    ∀ i, Lines [504] (create_indexes_loop res i n) := by
  induction n with
  | zero => intro i; exact lines_pure _ _
  | succ n ih =>
    intro i
    unfold create_indexes_loop
    exact lines_bind (lines_command (by decide) _ _) (fun _ => ih _)

theorem create_indexes_lines (table : reorg_table) :
    Lines [480, 504] (create_indexes table) := by
  unfold create_indexes
  refine lines_bind (lines_execute (by decide) _ _) (fun res => ?_)
  exact lines_mono (by simp) (create_indexes_loop_lines res _ 0)

theorem apply_until_done_lines (table : reorg_table) (vxid : String) (fuel : Nat) :
    Lines [374, 520] (apply_until_done table vxid fuel) := by
  induction fuel with
  | zero => exact lines_halt _ _
  | succ fuel ih =>
    unfold apply_until_done
    repeat (first
      | exact ih
      | exact lines_apply_log (by decide) _ _
      | exact lines_execute (by decide) _ _
      | exact lines_get_world _
      | exact lines_sleep _ _
      | exact lines_pure _ _
      | apply lines_bind
      | intro _
      | split
      | dsimp only)

theorem lock_loop_lines (table : reorg_table) (fuel : Nat) :
    Lines [542, 543, 553] (lock_loop table fuel) := by
  induction fuel with
  | zero => exact lines_halt _ _
  | succ fuel ih =>
    unfold lock_loop
    repeat (first
      | exact ih
      | exact lines_command (by decide) _ _
      | exact lines_execute_elevel (by decide) _ _ _
      | exact lines_sleep _ _
      | exact lines_emit_stdout _ _
      | exact lines_halt _ _
      | exact lines_pure _ _
      | apply lines_bind
      | intro _
      | split
      | dsimp only)

theorem swap_lines (table : reorg_table) (fuel : Nat) :
    Lines [542, 543, 553, 374, 568, 569] (swap table fuel) := by
  unfold swap
  repeat (first
    | exact lines_mono (by simp) (lock_loop_lines _ _)
    | exact lines_command (by decide) _ _
    | exact lines_apply_log (by decide) _ _
    | exact lines_pure _ _
    | apply lines_bind
    | intro _
    | dsimp only)

theorem drop_lines (table : reorg_table) : Lines [577, 579, 580] (drop table) := by
  unfold drop
  repeat (first
    | exact lines_command (by decide) _ _
    | exact lines_set_current_table _ _
    | apply lines_bind
    | intro _
    | dsimp only)

theorem analyze_table_lines (table : reorg_table) :
    Lines [593, 596, 597] (analyze_table table) := by
  unfold analyze_table
  repeat (first
    | exact lines_command (by decide) _ _
    | exact lines_get_world _
    | apply lines_bind
    | intro _
    | dsimp only)

/-! ## State left untouched -/

theorem frame_of_world_eq {α : Type} {m : M α} (h : ∀ w, (m w).world = w) : Frame m := by
  constructor
  intro w
  rw [h w]

theorem frame_pure {α : Type} (a : α) : Frame (pure a : M α) :=
  frame_of_world_eq (fun _ => rfl)

theorem frame_halt {α : Type} (h : Halt) : Frame (halt h : M α) :=
  frame_of_world_eq (fun _ => rfl)

theorem frame_elog_ERROR {α : Type} (l : Nat) (msg : String) :
    Frame (elog_ERROR l msg : M α) :=
  frame_of_world_eq (fun _ => rfl)

theorem frame_get_world : Frame get_world :=
  frame_of_world_eq (fun _ => rfl)

theorem frame_bind {α β : Type} {m : M α} {f : α → M β}
    (hm : Frame m) (hf : ∀ a, Frame (f a)) : Frame (m >>= f) := by
  constructor
  intro w
  have h2 := hm.same w
  rw [bind_apply]
  rcases hr : (m w).res with a | h
  · simp only [prepend_world]
    rw [(hf a).same, h2]
  · exact h2

theorem frame_execute_elevel (l : Nat) (q : Option String) (p : List (Option String))
    (lvl : Elevel) : Frame (execute_elevel l q p lvl) := by
  constructor
  intro w
  rw [execute_elevel_apply]
  rcases w.replies with _ | ⟨r, rs⟩
  · simp
  · by_cases h : (r.succeeded || lvl != Elevel.ERROR) = true
    · simp only [h, if_true]
    · simp only [h]; simp

theorem frame_execute (l : Nat) (q : Option String) (p : List (Option String)) :
    Frame (execute l q p) :=
  frame_execute_elevel l q p _

theorem frame_command (l : Nat) (q : Option String) (p : List (Option String)) :
    Frame (command l q p) :=
  frame_bind (frame_execute l q p) (fun _ => frame_pure _)

theorem setup_frame (table : reorg_table) : Frame (setup table) := by
  unfold setup
  repeat (first
    | exact frame_command _ _ _
    | exact frame_execute _ _ _
    | exact frame_elog_ERROR _ _
    | exact frame_pure _
    | apply frame_bind
    | intro _
    | split
    | dsimp only)

theorem copy_tuples_frame (table : reorg_table) (orderby : Option String) :
    Frame (copy_tuples table orderby) := by
  unfold copy_tuples
  repeat (first
    | exact frame_command _ _ _
    | exact frame_execute _ _ _
    | exact frame_get_world
    | exact frame_halt _
    | exact frame_pure _
    | apply frame_bind
    | intro _
    | split
    | dsimp only)

theorem create_indexes_loop_frame (res : PGresult) (n : Nat) :
    ∀ i, Frame (create_indexes_loop res i n) := by
  induction n with
  | zero => intro i; exact frame_pure _
  | succ n ih =>
    intro i
    unfold create_indexes_loop
    exact frame_bind (frame_command _ _ _) (fun _ => ih _)

theorem create_indexes_frame (table : reorg_table) : Frame (create_indexes table) := by
  unfold create_indexes
  exact frame_bind (frame_execute _ _ _) (fun res => create_indexes_loop_frame res _ 0)

theorem at_line_false_of_in_lines {S : List Nat} {l : Nat} (hl : l ∉ S) {e : Event}
    (h : e.in_lines S = true) : e.at_line l = false := by
  cases e <;> simp_all [Event.in_lines, Event.at_line]
  rintro rfl
  exact hl h

theorem split_after {α : Type} {P : α → Prop} {A T pre post : List α} {e : α}
    (hA : ∀ x ∈ A, ¬ P x) (he : P e) (h : A ++ T = pre ++ e :: post) :
    ∃ pre', pre = A ++ pre' ∧ T = pre' ++ e :: post := by
  rcases List.append_eq_append_iff.mp h with ⟨a', h1, h2⟩ | ⟨c', h1, h2⟩
  · exact ⟨a', h1, h2⟩
  · rcases c' with _ | ⟨c, cs⟩
    · refine ⟨[], by simpa using h1.symm, by simpa using h2.symm⟩
    · simp only [List.cons_append, List.cons.injEq] at h2
      exfalso
      apply hA e _ he
      rw [h1, h2.1]
      simp

theorem split_head {α : Type} {P : α → Prop} {T pre post : List α} {x e : α}
    (hT : ∀ y ∈ T, ¬ P y) (he : P e) (h : x :: T = pre ++ e :: post) :
    pre = [] ∧ e = x ∧ post = T := by
  rcases pre with _ | ⟨p, ps⟩
  · simp only [List.nil_append, List.cons.injEq] at h
    exact ⟨rfl, h.1.symm, h.2.symm⟩
  · simp only [List.cons_append, List.cons.injEq] at h
    exfalso
    apply hT e _ he
    rw [h.2]
    simp

/-- In the events of `m >>= f`, a statement sent at a line that is not one of
`m` belongs to `f`: `m` has returned and all of its events come before. -/
theorem skip_bind {α β : Type} {S : List Nat} {m : M α} {f : α → M β} (hm : Lines S m)
    {l : Nat} (hl : l ∉ S) {w : World} {pre post : List Event} {e : Event}
    (he : e.at_line l = true) (h : ((m >>= f) w).events = pre ++ e :: post) :
    ∃ a pre', (m w).res = .ok a ∧ pre = (m w).events ++ pre' ∧
      (f a (m w).world).events = pre' ++ e :: post := by
  rw [events_bind] at h
  have hA : ∀ x ∈ (m w).events, ¬ (x.at_line l = true) := by
    intro x hx
    rw [at_line_false_of_in_lines hl (hm.sub w x hx)]
    simp
  obtain ⟨pre', h1, h2⟩ := split_after (P := fun x => x.at_line l = true) hA he h
  rcases hr : (m w).res with a | hh
  · rw [hr] at h2
    exact ⟨a, pre', rfl, h1, h2⟩
  · rw [hr] at h2
    simp at h2

theorem execute_elevel_ok {l : Nat} {q : Option String} {p : List (Option String)}
    {lvl : Elevel} {w : World} {a : PGresult} (h : (execute_elevel l q p lvl w).res = .ok a) :
    ∃ rs, w.replies = a :: rs ∧ (a.succeeded = true ∨ lvl ≠ .ERROR) ∧
      execute_elevel l q p lvl w = ⟨[.exec l q p (some a)], .ok a, { w with replies := rs }⟩ := by
  rw [execute_elevel_apply] at h ⊢
  rcases hw : w.replies with _ | ⟨r, rs⟩
  · rw [hw] at h; simp at h
  · rw [hw] at h
    simp only at h ⊢
    by_cases hc : (r.succeeded || lvl != Elevel.ERROR) = true
    · simp only [hc, if_true, Res.ok.injEq] at h ⊢
      subst h
      refine ⟨rs, rfl, ?_, rfl⟩
      simpa using hc
    · simp only [hc] at h
      simp at h

theorem execute_ok {l : Nat} {q : Option String} {p : List (Option String)}
    {w : World} {a : PGresult} (h : (execute l q p w).res = .ok a) :
    ∃ rs, w.replies = a :: rs ∧ a.succeeded = true ∧
      execute l q p w = ⟨[.exec l q p (some a)], .ok a, { w with replies := rs }⟩ := by
  obtain ⟨rs, h1, h2, h3⟩ := @execute_elevel_ok l q p .ERROR w a h
  exact ⟨rs, h1, by simpa using h2, h3⟩

theorem command_ok {l : Nat} {q : Option String} {p : List (Option String)}
    {w : World} {a : Unit} (h : (command l q p w).res = .ok a) :
    ∃ r rs, w.replies = r :: rs ∧ r.succeeded = true ∧
      command l q p w = ⟨[.exec l q p (some r)], .ok (), { w with replies := rs }⟩ := by
  rw [command_apply] at h ⊢
  rcases hw : w.replies with _ | ⟨r, rs⟩
  · rw [hw] at h; simp at h
  · rw [hw] at h
    simp only at h ⊢
    by_cases hc : r.succeeded = true
    · simp only [hc, if_true]
      exact ⟨r, rs, rfl, hc, rfl⟩
    · simp only [hc] at h
      simp at h

theorem apply_log_ok {table : reorg_table} {count : Nat} {w : World} {n : Int}
    (h : (apply_log table count w).res = .ok n) :
    ∃ r rs, w.replies = r :: rs ∧ r.succeeded = true ∧ applied_count r = some n ∧
      apply_log table count w =
        ⟨[apply_event table count r], .ok n, { w with replies := rs }⟩ := by
  rw [apply_log_apply] at h ⊢
  rcases hw : w.replies with _ | ⟨r, rs⟩
  · rw [hw] at h; simp at h
  · rw [hw] at h
    simp only at h ⊢
    by_cases hc : r.succeeded = true
    · simp only [hc, if_true] at h ⊢
      rcases hv : PQgetvalue r 0 0 with _ | v
      · rw [hv] at h; simp at h
      · rw [hv] at h
        simp only [Res.ok.injEq] at h
        subst h
        exact ⟨r, rs, rfl, hc, by simp [applied_count, hc, hv], rfl⟩
    · simp only [hc] at h
      simp at h

/-- The events of a statement followed by `f` start with the statement. -/
theorem events_execute_elevel_bind {β : Type} (l : Nat) (q : Option String)
    (p : List (Option String)) (lvl : Elevel) (f : PGresult → M β) (w : World) :
    ∃ rep tail, ((execute_elevel l q p lvl >>= f) w).events = .exec l q p rep :: tail ∧
      (tail = [] ∨ ∃ r rs, rep = some r ∧ w.replies = r :: rs ∧
        tail = (f r { w with replies := rs }).events) := by
  rw [execute_elevel_bind_apply]
  rcases hw : w.replies with _ | ⟨r, rs⟩
  · exact ⟨none, [], rfl, Or.inl rfl⟩
  · simp only
    by_cases hc : (r.succeeded || lvl != Elevel.ERROR) = true
    · simp only [hc, if_true]
      exact ⟨some r, _, rfl, Or.inr ⟨r, rs, rfl, rfl, rfl⟩⟩
    · simp only [hc]
      exact ⟨some r, [], rfl, Or.inl rfl⟩

theorem events_command_bind {β : Type} (l : Nat) (q : Option String)
    (p : List (Option String)) (f : Unit → M β) (w : World) :
    ∃ rep tail, ((command l q p >>= f) w).events = .exec l q p rep :: tail ∧
      (tail = [] ∨ ∃ r rs, rep = some r ∧ r.succeeded = true ∧ w.replies = r :: rs ∧
        tail = (f () { w with replies := rs }).events) := by
  rw [command_bind_apply]
  rcases hw : w.replies with _ | ⟨r, rs⟩
  · exact ⟨none, [], rfl, Or.inl rfl⟩
  · simp only
    by_cases hc : r.succeeded = true
    · simp only [hc, if_true]
      exact ⟨some r, _, rfl, Or.inr ⟨r, rs, rfl, hc, rfl, rfl⟩⟩
    · simp only [hc]
      exact ⟨some r, [], rfl, Or.inl rfl⟩

/-- In the events of `command l ...` followed by `f`, where `f` sends nothing
at line `l`, a statement sent at line `l` is the first event. -/
theorem head_command_bind {β : Type} {S : List Nat} {l : Nat} {q : Option String}
    {p : List (Option String)} {f : Unit → M β} (hf : ∀ a, Lines S (f a)) (hl : l ∉ S)
    {w : World} {pre post : List Event} {e : Event}
    (he : e.at_line l = true) (h : ((command l q p >>= f) w).events = pre ++ e :: post) :
    pre = [] ∧ ∃ rep, e = .exec l q p rep ∧
      (post = [] ∨ ∃ r rs, rep = some r ∧ r.succeeded = true ∧ w.replies = r :: rs ∧
        post = (f () { w with replies := rs }).events) := by
  obtain ⟨rep, tail, h1, h2⟩ := events_command_bind l q p f w
  rw [h1] at h
  have hT : ∀ y ∈ tail, ¬ (y.at_line l = true) := by
    intro y hy
    rcases h2 with rfl | ⟨r, rs, _, _, _, rfl⟩
    · simp at hy
    · rw [at_line_false_of_in_lines hl ((hf ()).sub _ y hy)]
      simp
  obtain ⟨hp, hee, hpost⟩ := split_head (P := fun x => x.at_line l = true) hT he h
  refine ⟨hp, rep, hee, ?_⟩
  rw [hpost]
  exact h2


theorem split_before {α : Type} {P : α → Prop} {A C pre post : List α} {e : α}
    (hC : ∀ x ∈ C, ¬ P x) (he : P e) (h : A ++ C = pre ++ e :: post) :
    ∃ post', A = pre ++ e :: post' ∧ post = post' ++ C := by
  rcases List.append_eq_append_iff.mp h with ⟨a', h1, h2⟩ | ⟨c', h1, h2⟩
  · rcases a' with _ | ⟨a, as⟩
    · simp only [List.nil_append] at h2
      exfalso
      apply hC e _ he
      rw [h2]
      simp
    · simp only [List.cons_append, List.cons.injEq] at h2
      exfalso
      apply hC e _ he
      rw [h2]
      simp
  · rcases c' with _ | ⟨c, cs⟩
    · simp only [List.nil_append] at h2
      exfalso
      apply hC e _ he
      rw [← h2]
      simp
    · simp only [List.cons_append, List.cons.injEq] at h2
      obtain ⟨rfl, h2⟩ := h2
      exact ⟨cs, h1, h2⟩

/-- In the events of `m >>= f`, a statement sent at a line at which `f` sends
nothing belongs to `m`. -/
theorem stay_bind {α β : Type} {S : List Nat} {m : M α} {f : α → M β}
    (hf : ∀ a, Lines S (f a)) {l : Nat} (hl : l ∉ S) {w : World} {pre post : List Event}
    {e : Event} (he : e.at_line l = true) (h : ((m >>= f) w).events = pre ++ e :: post) :
    ∃ post', (m w).events = pre ++ e :: post' ∧
      ((post = post' ∧ ∃ hh, (m w).res = .halt hh) ∨
       (∃ a, (m w).res = .ok a ∧ post = post' ++ (f a (m w).world).events)) := by
  rw [events_bind] at h
  rcases hr : (m w).res with a | hh
  · rw [hr] at h
    simp only at h
    have hC : ∀ x ∈ (f a (m w).world).events, ¬ (x.at_line l = true) := by
      intro x hx
      rw [at_line_false_of_in_lines hl ((hf a).sub _ x hx)]
      simp
    obtain ⟨post', h1, h2⟩ := split_before (P := fun x => x.at_line l = true) hC he h
    exact ⟨post', h1, Or.inr ⟨a, rfl, h2⟩⟩
  · rw [hr] at h
    simp only [List.append_nil] at h
    exact ⟨post, h, Or.inl ⟨rfl, hh, rfl⟩⟩

theorem events_command (l : Nat) (q : Option String) (p : List (Option String)) (w : World) :
    ∃ rep, (command l q p w).events = [.exec l q p rep] := by
  rw [command_apply]
  rcases w.replies with _ | ⟨r, rs⟩
  · exact ⟨none, rfl⟩
  · by_cases hc : r.succeeded = true
    · simp only [hc, if_true]; exact ⟨some r, rfl⟩
    · simp only [hc]; exact ⟨some r, rfl⟩

theorem command_bind_halt_of_tail_nil {β : Type} {l : Nat} {q : Option String}
    {p : List (Option String)} {f : Unit → M β} {w : World} {rep : Option PGresult}
    (hf : ∀ w', (f () w').events ≠ [])
    (h : ((command l q p >>= f) w).events = [.exec l q p rep]) :
    ∃ hh, ((command l q p >>= f) w).res = .halt hh := by
  rw [command_bind_apply] at h ⊢
  rcases hw : w.replies with _ | ⟨r, rs⟩
  · exact ⟨_, rfl⟩
  · rw [hw] at h
    by_cases hc : r.succeeded = true
    · simp [hc] at h
      exact absurd h.2 (hf _)
    · simp only [hc]
      exact ⟨_, rfl⟩

/-- What `swap` has sent when it sends `reorg_swap` (line 568), and what it sends next. -/
theorem swap_events_at_568 (table : reorg_table) (fuel : Nat) (w : World)
    (pre post : List Event) (e : Event)
    (hev : (swap table fuel w).events = pre ++ e :: post) (he : e.at_line 568 = true) :
    (∃ (attempts : List (List Event)) (granted : List Event) (d : PGresult),
      (∀ it ∈ attempts, lock_retry table it) ∧ lock_granted table granted ∧
      d.succeeded = true ∧ pre = attempts.flatten ++ granted ++ [apply_event table 0 d]) ∧
    (∃ rep, e = .exec 568 (some "SELECT reorg.reorg_swap($1)")
      [some (utoa table.target_oid)] rep) ∧
    ((post = [] ∧ ∃ hh, (swap table fuel w).res = .halt hh) ∨
      ∃ c, post = [.exec 569 (some "COMMIT") [] c]) := by
  have hswap := hev
  unfold swap at hev
  obtain ⟨a, pre1, hres, rfl, hev1⟩ :=
    skip_bind (lock_loop_lines table fuel) (by decide) he hev
  dsimp only at hev1
  obtain ⟨n, pre2, hres2, rfl, hev2⟩ :=
    skip_bind (lines_apply_log (S := [374]) (by decide) table 0) (by decide) he hev1
  obtain ⟨hp, rep, hee, hpost⟩ := head_command_bind (S := [569])
    (fun _ => lines_command (by decide) _ _) (by decide) he hev2
  subst hp
  obtain ⟨attempts, last, _, h2, h3, h4, _⟩ := lock_loop_sound table fuel w (Or.inl hres)
  rw [hres] at h3
  rcases h3 with ⟨_, h3⟩ | ⟨h3, _⟩
  · obtain ⟨d, rs, _, hd, _, hd2⟩ := apply_log_ok hres2
    refine ⟨⟨attempts, last, d, h2, h3, hd, ?_⟩, ⟨rep, hee⟩, ?_⟩
    · rw [h4, hd2]
      simp
    · rcases hpost with rfl | ⟨r, rs', _, _, _, hpost⟩
      · left
        refine ⟨rfl, ?_⟩
        subst hee
        simp only [List.nil_append] at hev2
        obtain ⟨hh, hhalt⟩ := command_bind_halt_of_tail_nil
          (fun w' => by
            obtain ⟨rep', h'⟩ := events_command 569 (some "COMMIT") [] w'
            rw [h']; simp) hev2
        refine ⟨hh, ?_⟩
        unfold swap
        rw [bind_of_ok hres, prepend_res, bind_of_ok hres2, prepend_res]
        exact hhalt
      · right
        obtain ⟨c, hc⟩ := events_command 569 (some "COMMIT") [] { (apply_log table 0 (lock_loop table fuel w).world).world with replies := rs' }
        exact ⟨c, by rw [hpost, hc]⟩
  · simp at h3

theorem ends_append {α : Type} (A : List α) {B T : List α}
    (h : ∃ p, B = p ++ T) : ∃ p, A ++ B = p ++ T := by
  obtain ⟨p, rfl⟩ := h
  exact ⟨A ++ p, by simp⟩

theorem command_bind_ok {β : Type} {l : Nat} {q : Option String} {p : List (Option String)}
    {f : Unit → M β} {w : World} {b : β} (h : ((command l q p >>= f) w).res = .ok b) :
    ∃ r rs, w.replies = r :: rs ∧ r.succeeded = true ∧
      (command l q p >>= f) w
        = (f () { w with replies := rs }).prepend [.exec l q p (some r)] ∧
      (f () { w with replies := rs }).res = .ok b := by
  rw [command_bind_apply] at h ⊢
  rcases hw : w.replies with _ | ⟨r, rs⟩
  · rw [hw] at h; simp at h
  · rw [hw] at h
    by_cases hc : r.succeeded = true
    · simp only [hc, if_true] at h ⊢
      exact ⟨r, rs, rfl, hc, rfl, by simpa using h⟩
    · simp [hc] at h

theorem execute_bind_ok {β : Type} {l : Nat} {q : Option String} {p : List (Option String)}
    {f : PGresult → M β} {w : World} {b : β} (h : ((execute l q p >>= f) w).res = .ok b) :
    ∃ r rs, w.replies = r :: rs ∧ r.succeeded = true ∧
      (execute l q p >>= f) w
        = (f r { w with replies := rs }).prepend [.exec l q p (some r)] ∧
      (f r { w with replies := rs }).res = .ok b := by
  rw [execute_bind_apply] at h ⊢
  rcases hw : w.replies with _ | ⟨r, rs⟩
  · rw [hw] at h; simp at h
  · rw [hw] at h
    by_cases hc : r.succeeded = true
    · simp only [hc, if_true] at h ⊢
      exact ⟨r, rs, rfl, hc, rfl, by simpa using h⟩
    · simp [hc] at h

/-- A run of phase 2 that returns has sent the snapshot query of line 464 and
returns the first field of its reply. -/
theorem copy_tuples_ok {table : reorg_table} {orderby : Option String} {w : World}
    {vxid : String} (h : (copy_tuples table orderby w).res = .ok vxid) :
    ∃ r, Event.exec 464 (some (SQL_XID_SNAPSHOT w.server_version)) [] (some r)
        ∈ (copy_tuples table orderby w).events ∧
      PQgetvalue r 0 0 = some vxid := by
  have key : ∀ (w' : World), w'.server_version = w.server_version →
      ((execute 464 (some (SQL_XID_SNAPSHOT w.server_version)) [] >>= fun res =>
        (match PQgetvalue res 0 0 with
          | none => halt (.crash 465)
          | some v => pure v) >>= fun vxid => do
        command 467 table.delete_log []
        command 468 table.create_table []
        command 470 (some ("SELECT reorg.disable_autovacuum('reorg.table_"
          ++ utoa table.target_oid ++ "')")) []
        command 471 (some "COMMIT") []
        pure vxid) w').res = .ok vxid →
      ∃ r, Event.exec 464 (some (SQL_XID_SNAPSHOT w.server_version)) [] (some r)
        ∈ ((execute 464 (some (SQL_XID_SNAPSHOT w.server_version)) [] >>= fun res =>
        (match PQgetvalue res 0 0 with
          | none => halt (.crash 465)
          | some v => pure v) >>= fun vxid => do
        command 467 table.delete_log []
        command 468 table.create_table []
        command 470 (some ("SELECT reorg.disable_autovacuum('reorg.table_"
          ++ utoa table.target_oid ++ "')")) []
        command 471 (some "COMMIT") []
        pure vxid) w').events ∧ PQgetvalue r 0 0 = some vxid := by
    intro w' _ h
    obtain ⟨r, rs, _, _, e1, h1⟩ := execute_bind_ok h
    rw [e1]
    refine ⟨r, by simp, ?_⟩
    rcases hv : PQgetvalue r 0 0 with _ | v
    · rw [hv] at h1; simp at h1
    · rw [hv] at h1
      simp only [pure_bind_apply] at h1
      obtain ⟨_, _, _, _, _, h2⟩ := command_bind_ok h1
      obtain ⟨_, _, _, _, _, h3⟩ := command_bind_ok h2
      obtain ⟨_, _, _, _, _, h4⟩ := command_bind_ok h3
      obtain ⟨_, _, _, _, _, h5⟩ := command_bind_ok h4
      simp only [pure_apply, Res.ok.injEq] at h5
      rw [h5]
  unfold copy_tuples at h ⊢
  obtain ⟨r1, rs1, _, _, e1, h1⟩ := command_bind_ok h
  rw [e1]
  obtain ⟨r2, rs2, _, _, e2, h2⟩ := command_bind_ok h1
  rw [e2]
  simp only [get_world_bind_apply] at h2 ⊢
  by_cases hc : (decide (w.server_version ≥ 80300) && orderby_is_empty orderby) = true
  · simp only [hc, if_true] at h2 ⊢
    obtain ⟨r3, rs3, _, _, e3, h3⟩ := command_bind_ok h2
    rw [e3]
    simp only [prepend_events]
    obtain ⟨r, hr1, hr2⟩ := key _ (by rfl) h3
    exact ⟨r, List.mem_append_right _ (List.mem_append_right _
      (List.mem_append_right _ hr1)), hr2⟩
  · simp only [hc] at h2 ⊢
    simp only [prepend_events]
    obtain ⟨r, hr1, hr2⟩ := key _ (by rfl) h2
    exact ⟨r, List.mem_append_right _ (List.mem_append_right _ hr1), hr2⟩

theorem copy_tuples_split (table : reorg_table) (orderby : Option String) (w : World) :
    copy_tuples table orderby w =
      (copy_tuples_head orderby w.server_version >>= fun _ =>
        copy_tuples_tail table w.server_version) w := by
  obtain ⟨replies, a1, a2, a3, a4, a5, a6, a7, a8, a9⟩ := w
  unfold copy_tuples copy_tuples_head copy_tuples_tail
  simp only [bind_assoc_M]
  rcases replies with _ | ⟨r1, _ | ⟨r2, rs⟩⟩
  · simp [command_bind_apply]
  · by_cases h1 : r1.succeeded = true <;> simp [command_bind_apply, h1]
  · by_cases h1 : r1.succeeded = true <;> by_cases h2 : r2.succeeded = true <;>
      by_cases hc : 80300 ≤ a2 ∧ orderby_is_empty orderby = true <;>
      simp [command_bind_apply, h1, h2, hc]

theorem copy_tuples_head_lines (orderby : Option String) (ver : Nat) :
    Lines [459, 461, 463] (copy_tuples_head orderby ver) := by
  unfold copy_tuples_head
  repeat (first
    | exact lines_command (by decide) _ _
    | exact lines_pure _ _
    | apply lines_bind
    | intro _
    | split
    | dsimp only)

theorem copy_tuples_tail_lines (table : reorg_table) (ver : Nat) :
    Lines [464, 467, 468, 470, 471] (copy_tuples_tail table ver) := by
  unfold copy_tuples_tail
  repeat (first
    | exact lines_command (by decide) _ _
    | exact lines_execute (by decide) _ _
    | exact lines_halt _ _
    | exact lines_pure _ _
    | apply lines_bind
    | intro _
    | split
    | dsimp only)

theorem copy_tuples_head_ok {orderby : Option String} {ver : Nat} {w : World} {a : Unit}
    (h : (copy_tuples_head orderby ver w).res = .ok a) :
    ∃ b c, b.succeeded = true ∧ c.succeeded = true ∧
      ((copy_tuples_head orderby ver w).events =
          [.exec 459 (some "BEGIN ISOLATION LEVEL SERIALIZABLE") [] (some b),
           .exec 461 (some
            "SELECT set_config('work_mem', current_setting('maintenance_work_mem'), true)")
            [] (some c)] ∨
       ∃ d, d.succeeded = true ∧ (copy_tuples_head orderby ver w).events =
          [.exec 459 (some "BEGIN ISOLATION LEVEL SERIALIZABLE") [] (some b),
           .exec 461 (some
            "SELECT set_config('work_mem', current_setting('maintenance_work_mem'), true)")
            [] (some c),
           .exec 463 (some "SET LOCAL synchronize_seqscans = off") [] (some d)]) := by
  unfold copy_tuples_head at h ⊢
  obtain ⟨b, rs1, _, hb, e1, h1⟩ := command_bind_ok h
  rw [e1]
  obtain ⟨c, rs2, _, hc, e2, h2⟩ := command_bind_ok h1
  rw [e2]
  refine ⟨b, c, hb, hc, ?_⟩
  by_cases hcond : (decide (ver ≥ 80300) && orderby_is_empty orderby) = true
  · simp only [hcond, if_true] at h2 ⊢
    obtain ⟨d, rs3, _, hd, e3⟩ := command_ok h2
    right
    exact ⟨d, hd, by rw [e3]; rfl⟩
  · simp only [hcond] at h2 ⊢
    left
    rfl

/-- Where the statements of lines 464, 467 and 468 stand in the second half of phase 2. -/
theorem copy_tuples_tail_order (table : reorg_table) (ver : Nat) (w : World)
    (pre post : List Event) (e : Event)
    (h : (copy_tuples_tail table ver w).events = pre ++ e :: post) :
    (e.at_line 464 = true → pre = [] ∧
      ∃ rep, e = .exec 464 (some (SQL_XID_SNAPSHOT ver)) [] rep) ∧
    (e.at_line 467 = true → ∃ r, r.succeeded = true ∧
      pre = [.exec 464 (some (SQL_XID_SNAPSHOT ver)) [] (some r)] ∧
      ∃ rep, e = .exec 467 table.delete_log [] rep) ∧
    (e.at_line 468 = true → ∃ pre0 r, r.succeeded = true ∧
      pre = pre0 ++ [.exec 467 table.delete_log [] (some r)] ∧
      ∃ rep, e = .exec 468 table.create_table [] rep) := by
  unfold copy_tuples_tail at h
  have hrest : ∀ (v : String), Lines [470, 471] (do
      command 470 (some ("SELECT reorg.disable_autovacuum('reorg.table_"
        ++ utoa table.target_oid ++ "')")) []
      command 471 (some "COMMIT") []
      (pure v : M String)) := by
    intro v
    repeat (first
      | exact lines_command (by decide) _ _
      | exact lines_pure _ _
      | apply lines_bind
      | intro _)
  refine ⟨?_, ?_, ?_⟩
  · intro he
    obtain ⟨rep, tail, h1, h2⟩ := events_execute_elevel_bind 464
      (some (SQL_XID_SNAPSHOT ver)) [] .ERROR _ w
    have h' := h
    unfold execute at h'
    rw [h1] at h'
    have hT : ∀ y ∈ tail, ¬ (y.at_line 464 = true) := by
      intro y hy
      rcases h2 with rfl | ⟨r, rs, _, _, rfl⟩
      · simp at hy
      · have hl : Lines [467, 468, 470, 471] ((match PQgetvalue r 0 0 with
            | none => halt (.crash 465)
            | some v => pure v) >>= fun vxid => do
          command 467 table.delete_log []
          command 468 table.create_table []
          command 470 (some ("SELECT reorg.disable_autovacuum('reorg.table_"
            ++ utoa table.target_oid ++ "')")) []
          command 471 (some "COMMIT") []
          (pure vxid : M String)) := by
          repeat (first
            | exact lines_command (by decide) _ _
            | exact lines_halt _ _
            | exact lines_pure _ _
            | apply lines_bind
            | intro _
            | split)
        rw [at_line_false_of_in_lines (by decide) (hl.sub _ y hy)]
        simp
    obtain ⟨hp, hee, _⟩ := split_head (P := fun x => x.at_line 464 = true) hT he h'
    exact ⟨hp, rep, hee⟩
  · intro he
    obtain ⟨r, pre1, hres, hpre, h1⟩ :=
      skip_bind (lines_execute (S := [464]) (by decide) _ _) (by decide) he h
    obtain ⟨rs, _, hr, e1⟩ := execute_ok hres
    rw [e1] at hpre h1
    simp only at hpre h1
    rcases hv : PQgetvalue r 0 0 with _ | v
    · rw [hv] at h1; simp at h1
    · rw [hv] at h1
      simp only [pure_bind_apply] at h1
      obtain ⟨hp, rep, hee, _⟩ := head_command_bind (S := [468, 470, 471])
        (fun _ => lines_bind (lines_command (by decide) _ _)
          (fun _ => lines_mono (by simp) (hrest v))) (by decide) he h1
      subst hp
      exact ⟨r, hr, by simpa using hpre, rep, hee⟩
  · intro he
    obtain ⟨r, pre1, hres, hpre, h1⟩ :=
      skip_bind (lines_execute (S := [464]) (by decide) _ _) (by decide) he h
    rcases hv : PQgetvalue r 0 0 with _ | v
    · rw [hv] at h1; simp at h1
    · rw [hv] at h1
      simp only [pure_bind_apply] at h1
      obtain ⟨_, pre2, hres2, hpre2, h2⟩ :=
        skip_bind (lines_command (S := [467]) (by decide) _ _) (by decide) he h1
      obtain ⟨r2, rs2, _, hr2, e2⟩ := command_ok hres2
      rw [e2] at hpre2 h2
      simp only at hpre2 h2
      obtain ⟨hp, rep, hee, _⟩ := head_command_bind (S := [470, 471])
        (fun _ => hrest v) (by decide) he h2
      subst hp
      refine ⟨(execute 464 (some (SQL_XID_SNAPSHOT ver)) [] w).events, r2, hr2, ?_, rep, hee⟩
      rw [hpre, hpre2]
      simp

/-- Every alive-query of the catch-up loop is the query of line 520 for the token `vxid`. -/
theorem apply_until_done_alive (table : reorg_table) (vxid : String) (fuel : Nat) :
    ∀ (w : World) (e : Event), e ∈ (apply_until_done table vxid fuel w).events →
      e.at_line 520 = true →
      ∃ rep, e = .exec 520 (some (SQL_XID_ALIVE w.server_version)) [some vxid] rep := by
  induction fuel with
  | zero => intro w e he; simp [apply_until_done] at he
  | succ fuel ih =>
    intro w e he hl
    unfold apply_until_done at he
    rw [apply_log_bind_apply] at he
    rcases hw : w.replies with _ | ⟨r, rs⟩
    · rw [hw] at he
      simp at he
      subst he
      simp [Event.at_line] at hl
    · rw [hw] at he
      simp only at he
      by_cases hs : r.succeeded = true
      · simp only [hs, if_true] at he
        rcases hv : PQgetvalue r 0 0 with _ | v
        · rw [hv] at he
          simp at he
          subst he
          simp [Event.at_line, apply_event] at hl
        · rw [hv] at he
          simp only [prepend_events, List.mem_append, List.mem_singleton] at he
          rcases he with rfl | he
          · simp [Event.at_line, apply_event] at hl
          · by_cases hp : atoi v > 0
            · simp only [hp, if_true] at he
              exact ih { w with replies := rs } e he hl
            · simp only [hp, if_false, get_world_bind_apply, execute_bind_apply] at he
              rcases hrs : rs with _ | ⟨q, qs⟩
              · rw [hrs] at he
                simp at he
                exact ⟨none, he⟩
              · rw [hrs] at he
                simp only at he
                by_cases hq : q.succeeded = true
                · simp only [hq, if_true, prepend_events, List.mem_append,
                    List.mem_singleton] at he
                  rcases he with rfl | he
                  · exact ⟨some q, rfl⟩
                  · by_cases hn : PQntuples q > 0
                    · simp only [hn, if_true, sleep_bind_apply, prepend_events,
                        List.mem_append, List.mem_singleton] at he
                      rcases he with rfl | he
                      · simp [Event.at_line] at hl
                      · exact ih { w with replies := qs } e he hl
                    · simp [hn] at he
                · simp [hq] at he
                  exact ⟨some q, he⟩
      · simp [hs] at he
        subst he
        simp [Event.at_line, apply_event] at hl

/-- A statement of `reorg_one_table` sent at line 464, 467 or 468 belongs to
phase 2: phase 1 has returned and all of its events come before. -/
theorem reorg_one_table_events_in_copy (table : reorg_table) (orderby : Option String)
    (fuel : Nat) (w : World) (pre post : List Event) (e : Event) (l : Nat)
    (hl : l = 464 ∨ l = 467 ∨ l = 468)
    (hev : (reorg_one_table table orderby fuel w).events = pre ++ e :: post)
    (he : e.at_line l = true) :
    ∃ (w2 : World) (pre2 post2 : List Event), w2.server_version = w.server_version ∧
      pre = (setup table w).events ++ pre2 ∧
      (copy_tuples table orderby w2).events = pre2 ++ e :: post2 := by
  unfold reorg_one_table at hev
  have hl1 : l ∉ [426, 434, 439, 440, 441, 443, 444] := by
    rcases hl with rfl | rfl | rfl <;> decide
  have hl2 : l ∉ [480, 504, 374, 520, 542, 543, 553, 568, 569, 577, 579, 580, 593, 596, 597] := by
    rcases hl with rfl | rfl | rfl <;> decide
  obtain ⟨_, pre1, _, h1, hev1⟩ := skip_bind (setup_lines table) hl1 he hev
  simp only [set_current_table_bind_apply] at hev1
  obtain ⟨post2, h2, _⟩ := stay_bind
    (S := [480, 504, 374, 520, 542, 543, 553, 568, 569, 577, 579, 580, 593, 596, 597])
    (fun vxid => by
      repeat (first
        | exact lines_mono (by simp) (create_indexes_lines table)
        | exact lines_mono (by simp) (apply_until_done_lines table vxid fuel)
        | exact lines_mono (by simp) (swap_lines table fuel)
        | exact lines_mono (by simp) (drop_lines table)
        | exact lines_mono (by simp) (analyze_table_lines table)
        | apply lines_bind
        | intro _)) hl2 he hev1
  refine ⟨_, pre1, post2, ?_, h1, h2⟩
  simp only
  rw [(setup_frame table).same w]

theorem frame_server_version {α : Type} {m : M α} (h : Frame m) (w : World) :
    (m w).world.server_version = w.server_version := by
  rw [h.same w]

theorem reorg_tables_loop_succ (orderby : Option String) (res : PGresult)
    (fuel i n : Nat) :
    reorg_tables_loop orderby res fuel i (n + 1) =
      (read_table orderby res i >>= fun table =>
        reorg_one_table table orderby fuel >>= fun _ =>
          reorg_tables_loop orderby res fuel (i + 1) n) := rfl

theorem bind_of_silent {α β : Type} {m : M α} {f : α → M β} {w : World} {a : α}
    (h : m w = ⟨[], .ok a, w⟩) : (m >>= f) w = f a w := by
  have hr : (m w).res = .ok a := by rw [h]
  rw [bind_of_ok hr, h]
  rfl

theorem bind_of_silent_halt {α β : Type} {m : M α} {f : α → M β} {w : World} {hh : Halt}
    (h : m w = ⟨[], .halt hh, w⟩) : (m >>= f) w = ⟨[], .halt hh, w⟩ := by
  have hr : (m w).res = .halt hh := by rw [h]
  rw [bind_of_halt hr, h]

@[simp] theorem reconnect_apply (w : World) :
    reconnect w = ⟨[.reconnect], .ok (), { w with connection := some .CONNECTION_OK }⟩ := rfl

@[simp] theorem reconnect_bind_apply {β : Type} (f : Unit → M β) (w : World) :
    (reconnect >>= f) w =
      (f () { w with connection := some .CONNECTION_OK }).prepend [.reconnect] := rfl

@[simp] theorem disconnect_apply (w : World) :
    disconnect w = ⟨[.disconnect], .ok (), { w with connection := none }⟩ := rfl

@[simp] theorem disconnect_bind_apply {β : Type} (f : Unit → M β) (w : World) :
    (disconnect >>= f) w = (f () { w with connection := none }).prepend [.disconnect] := rfl

/-! ## Registration of the current table -/

theorem frame_connection {α : Type} {m : M α} (h : Frame m) (w : World) :
    (m w).world.connection = w.connection := by
  rw [h.same w]

theorem bind_res_ok {α β : Type} {m : M α} {f : α → M β} {w : World} {b : β}
    (h : ((m >>= f) w).res = .ok b) :
    ∃ a, (m w).res = .ok a ∧ (f a (m w).world).res = .ok b ∧
      (m >>= f) w = (f a (m w).world).prepend (m w).events := by
  rcases hr : (m w).res with a | hh
  · rw [bind_of_ok hr] at h ⊢
    exact ⟨a, rfl, by simpa using h, rfl⟩
  · rw [bind_of_halt hr] at h
    simp at h

theorem txn_run_append (auto : Event → Bool) (a b : List Event) :
    ∀ s, txn_run auto s (a ++ b) =
      match txn_run auto s a with
      | none => none
      | some t => txn_run auto t b := by
  induction a with
  | nil => intro s; rfl
  | cons e es ih =>
    intro s
    simp only [List.cons_append, txn_run]
    rcases txn_step auto s e with _ | u
    · rfl
    · exact ih u

theorem txn_bind {α β : Type} {auto : Event → Bool} {s t u : Bool} {m : M α} {f : α → M β}
    (hm : Txn auto s t m) (hf : ∀ a, Txn auto t u (f a)) : Txn auto s u (m >>= f) := by
  constructor
  intro w b h
  obtain ⟨a, h1, h2, e⟩ := bind_res_ok h
  rw [e, prepend_events, txn_run_append, hm.run w a h1]
  exact (hf a).run _ b h2

theorem txn_pure {α : Type} (auto : Event → Bool) (s : Bool) (a : α) :
    Txn auto s s (pure a : M α) := ⟨fun _ _ _ => rfl⟩

theorem txn_halt {α : Type} (auto : Event → Bool) (s t : Bool) (h : Halt) :
    Txn auto s t (halt h : M α) := ⟨fun w a hr => by simp at hr⟩

theorem txn_elog_ERROR {α : Type} (auto : Event → Bool) (s t : Bool) (l : Nat)
    (msg : String) : Txn auto s t (elog_ERROR l msg : M α) := ⟨fun w a hr => by simp at hr⟩

theorem txn_get_world (auto : Event → Bool) (s : Bool) : Txn auto s s get_world :=
  ⟨fun _ _ _ => rfl⟩

theorem txn_set_current_table (auto : Event → Bool) (s : Bool) (t : Option reorg_table) :
    Txn auto s s (set_current_table t) := ⟨fun _ _ _ => rfl⟩

theorem txn_sleep (auto : Event → Bool) (s : Bool) (n : Nat) : Txn auto s s (sleep n) :=
  ⟨fun _ _ _ => by simp [txn_run, txn_step, Event.is_begin, Event.is_end, Event.is_statement]⟩

theorem txn_execute_elevel {auto : Event → Bool} {s t : Bool} {l : Nat} {q : Option String}
    {p : List (Option String)} (lvl : Elevel)
    (h : ∀ rep, txn_step auto s (.exec l q p rep) = some t) :
    Txn auto s t (execute_elevel l q p lvl) := by
  constructor
  intro w a hr
  obtain ⟨rs, _, _, e⟩ := execute_elevel_ok hr
  rw [e]
  simp [txn_run, h]

theorem txn_execute {auto : Event → Bool} {s t : Bool} {l : Nat} {q : Option String}
    {p : List (Option String)} (h : ∀ rep, txn_step auto s (.exec l q p rep) = some t) :
    Txn auto s t (execute l q p) := txn_execute_elevel .ERROR h

theorem txn_command {auto : Event → Bool} {s t : Bool} {l : Nat} {q : Option String}
    {p : List (Option String)} (h : ∀ rep, txn_step auto s (.exec l q p rep) = some t) :
    Txn auto s t (command l q p) :=
  txn_bind (txn_execute h) (fun _ => txn_pure auto t _)

theorem txn_of_no_events {α : Type} {auto : Event → Bool} {s : Bool} {m : M α}
    (h : ∀ w, (m w).events = []) : Txn auto s s m :=
  ⟨fun w _ _ => by rw [h w]; rfl⟩

theorem txn_value (auto : Event → Bool) (s : Bool) (v : Option String) (h : Halt) :
    Txn auto s s (match v with
      | none => halt h
      | some v => (pure v : M String)) := by
  cases v
  · exact txn_halt _ _ _ _
  · exact txn_pure _ _ _

theorem txn_apply_log {auto : Event → Bool} {s t : Bool} (table : reorg_table) (count : Nat)
    (h : ∀ rep, txn_step auto s (.exec 374
      (some "SELECT reorg.reorg_apply($1, $2, $3, $4, $5, $6)")
      [table.sql_peek, table.sql_insert, table.sql_delete, table.sql_update, table.sql_pop,
        some (utoa count)] rep) = some t) :
    Txn auto s t (apply_log table count) := by
  unfold apply_log
  refine txn_bind (txn_execute h) (fun res => ?_)
  split
  · exact txn_halt _ _ _ _
  · exact txn_pure _ _ _

theorem utoa_zero_ne_apply_count : utoa 0 ≠ utoa APPLY_COUNT := by decide

theorem txn_emit_stdout (auto : Event → Bool) (s : Bool) (text : String) :
    Txn auto s s (emit (.stdout text)) :=
  ⟨fun _ _ _ => by simp [txn_run, txn_step, Event.is_begin, Event.is_end, Event.is_statement]⟩

/-- A statement that is no `BEGIN`, `COMMIT` or `ROLLBACK` of the driver and is
not selected by `auto` keeps a transaction open. -/
theorem inside_step {auto : Event → Bool} {l : Nat} {q : Option String}
    {p : List (Option String)}
    (hl : l ∉ [426, 459, 542, 577, 593, 444, 471, 569, 580, 597, 553])
    (ha : ∀ rep, auto (.exec l q p rep) = false) :
    ∀ rep, txn_step auto true (.exec l q p rep) = some true := by
  intro rep
  simp only [List.mem_cons, List.mem_singleton, not_or, List.not_mem_nil, or_false] at hl
  simp [txn_step, Event.is_begin, Event.is_end, Event.is_statement, ha, hl]

/-- A statement that is no `BEGIN`, `COMMIT` or `ROLLBACK` of the driver and is
selected by `auto` is accepted outside a transaction. -/
theorem outside_step {auto : Event → Bool} {l : Nat} {q : Option String}
    {p : List (Option String)}
    (hl : l ∉ [426, 459, 542, 577, 593, 444, 471, 569, 580, 597, 553])
    (ha : ∀ rep, auto (.exec l q p rep) = true) :
    ∀ rep, txn_step auto false (.exec l q p rep) = some false := by
  intro rep
  simp only [List.mem_cons, List.mem_singleton, not_or, List.not_mem_nil, or_false] at hl
  simp [txn_step, Event.is_begin, Event.is_end, Event.is_statement, ha, hl]

theorem txn_begin {auto : Event → Bool} {l : Nat} {q : String}
    (hl : l ∈ [426, 459, 542, 577, 593])
    (hq : q = "BEGIN ISOLATION LEVEL READ COMMITTED" ∨
      q = "BEGIN ISOLATION LEVEL SERIALIZABLE") :
    Txn auto false true (command l (some q) []) :=
  txn_command (fun rep => by
    simp only [List.mem_cons, List.mem_singleton, List.not_mem_nil, or_false] at hl
    simp [txn_step, Event.is_begin, hl, hq])

theorem txn_commit {auto : Event → Bool} {l : Nat} (hl : l ∈ [444, 471, 569, 580, 597]) :
    Txn auto true false (command l (some "COMMIT") []) :=
  txn_command (fun rep => by
    have h1 : l ∉ [426, 459, 542, 577, 593] := by
      simp only [List.mem_cons, List.mem_singleton, List.not_mem_nil, or_false] at hl
      rcases hl with rfl | rfl | rfl | rfl | rfl <;> decide
    simp only [List.mem_cons, List.mem_singleton, List.not_mem_nil, or_false] at hl h1
    simp [txn_step, Event.is_begin, Event.is_end, hl, h1])

theorem txn_rollback (auto : Event → Bool) :
    Txn auto true false (command 553 (some "ROLLBACK") []) :=
  txn_command (fun rep => by simp [txn_step, Event.is_begin, Event.is_end])

theorem setup_txn (table : reorg_table) :
    Txn Event.in_phase_3_or_4 false false (setup table) := by
  have ih : True := trivial
  unfold setup
  repeat (first
    | exact ih
    | exact txn_begin (by decide) (by simp)
    | exact txn_commit (by decide)
    | exact txn_rollback _
    | exact txn_command (inside_step (by decide) (fun _ => by simp [Event.in_phase_3_or_4]))
    | exact txn_execute (inside_step (by decide) (fun _ => by simp [Event.in_phase_3_or_4]))
    | exact txn_execute_elevel _
        (inside_step (by decide) (fun _ => by simp [Event.in_phase_3_or_4]))
    | exact txn_execute (outside_step (by decide) (fun _ => by simp [Event.in_phase_3_or_4]))
    | exact txn_apply_log _ _ (inside_step (by decide) (fun _ => by
        simp [Event.in_phase_3_or_4, utoa_zero_ne_apply_count]))
    | exact txn_apply_log _ _ (outside_step (by decide) (fun _ => by
        simp [Event.in_phase_3_or_4]))
    | exact txn_pure _ _ _
    | exact txn_get_world _ _
    | exact txn_sleep _ _ _
    | exact txn_set_current_table _ _ _
    | exact txn_emit_stdout _ _ _
    | exact txn_halt _ _ _ _
    | exact txn_elog_ERROR _ _ _ _ _
    | exact txn_value _ _ _ _
    | apply txn_bind
    | intro _
    | split
    | dsimp only)

theorem copy_tuples_txn (table : reorg_table) (orderby : Option String) :
    Txn Event.in_phase_3_or_4 false false (copy_tuples table orderby) := by
  have ih : True := trivial
  unfold copy_tuples
  repeat (first
    | exact ih
    | exact txn_begin (by decide) (by simp)
    | exact txn_commit (by decide)
    | exact txn_rollback _
    | exact txn_command (inside_step (by decide) (fun _ => by simp [Event.in_phase_3_or_4]))
    | exact txn_execute (inside_step (by decide) (fun _ => by simp [Event.in_phase_3_or_4]))
    | exact txn_execute_elevel _
        (inside_step (by decide) (fun _ => by simp [Event.in_phase_3_or_4]))
    | exact txn_execute (outside_step (by decide) (fun _ => by simp [Event.in_phase_3_or_4]))
    | exact txn_apply_log _ _ (inside_step (by decide) (fun _ => by
        simp [Event.in_phase_3_or_4, utoa_zero_ne_apply_count]))
    | exact txn_apply_log _ _ (outside_step (by decide) (fun _ => by
        simp [Event.in_phase_3_or_4]))
    | exact txn_pure _ _ _
    | exact txn_get_world _ _
    | exact txn_sleep _ _ _
    | exact txn_set_current_table _ _ _
    | exact txn_emit_stdout _ _ _
    | exact txn_halt _ _ _ _
    | exact txn_elog_ERROR _ _ _ _ _
    | exact txn_value _ _ _ _
    | apply txn_bind
    | intro _
    | split
    | dsimp only)

theorem create_indexes_loop_txn (res : PGresult) (n : Nat) :
    ∀ i, Txn Event.in_phase_3_or_4 false false (create_indexes_loop res i n) := by
  induction n with
  | zero => intro i; exact txn_pure _ _ _
  | succ n ih =>
    intro i
    unfold create_indexes_loop
    exact txn_bind (txn_command (outside_step (by decide) (fun _ => by
      simp [Event.in_phase_3_or_4]))) (fun _ => ih _)

theorem create_indexes_txn (table : reorg_table) :
    Txn Event.in_phase_3_or_4 false false (create_indexes table) := by
  unfold create_indexes
  exact txn_bind (txn_execute (outside_step (by decide) (fun _ => by
    simp [Event.in_phase_3_or_4]))) (fun res => create_indexes_loop_txn res _ 0)

theorem apply_until_done_txn (table : reorg_table) (vxid : String) (fuel : Nat) :
    Txn Event.in_phase_3_or_4 false false (apply_until_done table vxid fuel) := by
  induction fuel with
  | zero => exact txn_halt _ _ _ _
  | succ fuel ih =>
    unfold apply_until_done
    repeat (first
      | exact ih
      | exact txn_begin (by decide) (by simp)
      | exact txn_commit (by decide)
      | exact txn_rollback _
      | exact txn_command (inside_step (by decide) (fun _ => by simp [Event.in_phase_3_or_4]))
      | exact txn_execute (inside_step (by decide) (fun _ => by simp [Event.in_phase_3_or_4]))
      | exact txn_execute_elevel _
          (inside_step (by decide) (fun _ => by simp [Event.in_phase_3_or_4]))
      | exact txn_execute (outside_step (by decide) (fun _ => by simp [Event.in_phase_3_or_4]))
      | exact txn_apply_log _ _ (inside_step (by decide) (fun _ => by
          simp [Event.in_phase_3_or_4, utoa_zero_ne_apply_count]))
      | exact txn_apply_log _ _ (outside_step (by decide) (fun _ => by
          simp [Event.in_phase_3_or_4]))
      | exact txn_pure _ _ _
      | exact txn_get_world _ _
      | exact txn_sleep _ _ _
      | exact txn_set_current_table _ _ _
      | exact txn_emit_stdout _ _ _
      | exact txn_halt _ _ _ _
      | exact txn_elog_ERROR _ _ _ _ _
      | exact txn_value _ _ _ _
      | apply txn_bind
      | intro _
      | split
      | dsimp only)

theorem lock_loop_txn (table : reorg_table) (fuel : Nat) :
    Txn Event.in_phase_3_or_4 false true (lock_loop table fuel) := by
  induction fuel with
  | zero => exact txn_halt _ _ _ _
  | succ fuel ih =>
    unfold lock_loop
    repeat (first
      | exact ih
      | exact txn_begin (by decide) (by simp)
      | exact txn_commit (by decide)
      | exact txn_rollback _
      | exact txn_command (inside_step (by decide) (fun _ => by simp [Event.in_phase_3_or_4]))
      | exact txn_execute (inside_step (by decide) (fun _ => by simp [Event.in_phase_3_or_4]))
      | exact txn_execute_elevel _
          (inside_step (by decide) (fun _ => by simp [Event.in_phase_3_or_4]))
      | exact txn_execute (outside_step (by decide) (fun _ => by simp [Event.in_phase_3_or_4]))
      | exact txn_apply_log _ _ (inside_step (by decide) (fun _ => by
          simp [Event.in_phase_3_or_4, utoa_zero_ne_apply_count]))
      | exact txn_apply_log _ _ (outside_step (by decide) (fun _ => by
          simp [Event.in_phase_3_or_4]))
      | exact txn_pure _ _ _
      | exact txn_get_world _ _
      | exact txn_sleep _ _ _
      | exact txn_set_current_table _ _ _
      | exact txn_emit_stdout _ _ _
      | exact txn_halt _ _ _ _
      | exact txn_elog_ERROR _ _ _ _ _
      | exact txn_value _ _ _ _
      | apply txn_bind
      | intro _
      | split
      | dsimp only)

theorem swap_txn (table : reorg_table) (fuel : Nat) :
    Txn Event.in_phase_3_or_4 false false (swap table fuel) := by
  have ih := lock_loop_txn table fuel
  unfold swap
  repeat (first
    | exact ih
    | exact txn_begin (by decide) (by simp)
    | exact txn_commit (by decide)
    | exact txn_rollback _
    | exact txn_command (inside_step (by decide) (fun _ => by simp [Event.in_phase_3_or_4]))
    | exact txn_execute (inside_step (by decide) (fun _ => by simp [Event.in_phase_3_or_4]))
    | exact txn_execute_elevel _
        (inside_step (by decide) (fun _ => by simp [Event.in_phase_3_or_4]))
    | exact txn_execute (outside_step (by decide) (fun _ => by simp [Event.in_phase_3_or_4]))
    | exact txn_apply_log _ _ (inside_step (by decide) (fun _ => by
        simp [Event.in_phase_3_or_4, utoa_zero_ne_apply_count]))
    | exact txn_apply_log _ _ (outside_step (by decide) (fun _ => by
        simp [Event.in_phase_3_or_4]))
    | exact txn_pure _ _ _
    | exact txn_get_world _ _
    | exact txn_sleep _ _ _
    | exact txn_set_current_table _ _ _
    | exact txn_emit_stdout _ _ _
    | exact txn_halt _ _ _ _
    | exact txn_elog_ERROR _ _ _ _ _
    | exact txn_value _ _ _ _
    | apply txn_bind
    | intro _
    | split
    | dsimp only)

theorem drop_txn (table : reorg_table) :
    Txn Event.in_phase_3_or_4 false false (drop table) := by
  have ih : True := trivial
  unfold drop
  repeat (first
    | exact ih
    | exact txn_begin (by decide) (by simp)
    | exact txn_commit (by decide)
    | exact txn_rollback _
    | exact txn_command (inside_step (by decide) (fun _ => by simp [Event.in_phase_3_or_4]))
    | exact txn_execute (inside_step (by decide) (fun _ => by simp [Event.in_phase_3_or_4]))
    | exact txn_execute_elevel _
        (inside_step (by decide) (fun _ => by simp [Event.in_phase_3_or_4]))
    | exact txn_execute (outside_step (by decide) (fun _ => by simp [Event.in_phase_3_or_4]))
    | exact txn_apply_log _ _ (inside_step (by decide) (fun _ => by
        simp [Event.in_phase_3_or_4, utoa_zero_ne_apply_count]))
    | exact txn_apply_log _ _ (outside_step (by decide) (fun _ => by
        simp [Event.in_phase_3_or_4]))
    | exact txn_pure _ _ _
    | exact txn_get_world _ _
    | exact txn_sleep _ _ _
    | exact txn_set_current_table _ _ _
    | exact txn_emit_stdout _ _ _
    | exact txn_halt _ _ _ _
    | exact txn_elog_ERROR _ _ _ _ _
    | exact txn_value _ _ _ _
    | apply txn_bind
    | intro _
    | split
    | dsimp only)

theorem analyze_table_txn (table : reorg_table) :
    Txn Event.in_phase_3_or_4 false false (analyze_table table) := by
  have ih : True := trivial
  unfold analyze_table
  repeat (first
    | exact ih
    | exact txn_begin (by decide) (by simp)
    | exact txn_commit (by decide)
    | exact txn_rollback _
    | exact txn_command (inside_step (by decide) (fun _ => by simp [Event.in_phase_3_or_4]))
    | exact txn_execute (inside_step (by decide) (fun _ => by simp [Event.in_phase_3_or_4]))
    | exact txn_execute_elevel _
        (inside_step (by decide) (fun _ => by simp [Event.in_phase_3_or_4]))
    | exact txn_execute (outside_step (by decide) (fun _ => by simp [Event.in_phase_3_or_4]))
    | exact txn_apply_log _ _ (inside_step (by decide) (fun _ => by
        simp [Event.in_phase_3_or_4, utoa_zero_ne_apply_count]))
    | exact txn_apply_log _ _ (outside_step (by decide) (fun _ => by
        simp [Event.in_phase_3_or_4]))
    | exact txn_pure _ _ _
    | exact txn_get_world _ _
    | exact txn_sleep _ _ _
    | exact txn_set_current_table _ _ _
    | exact txn_emit_stdout _ _ _
    | exact txn_halt _ _ _ _
    | exact txn_elog_ERROR _ _ _ _ _
    | exact txn_value _ _ _ _
    | apply txn_bind
    | intro _
    | split
    | dsimp only)

theorem reorg_one_table_txn (table : reorg_table) (orderby : Option String) (fuel : Nat) :
    Txn Event.in_phase_3_or_4 false false (reorg_one_table table orderby fuel) := by
  unfold reorg_one_table
  repeat (first
    | exact setup_txn table
    | exact copy_tuples_txn table orderby
    | exact create_indexes_txn table
    | exact apply_until_done_txn table _ fuel
    | exact swap_txn table fuel
    | exact drop_txn table
    | exact analyze_table_txn table
    | exact txn_set_current_table _ _ _
    | apply txn_bind
    | intro _)

/-! ## The count returned by `apply_log` -/

/-- The count of `apply_log` is an `int`: `atoi` wraps the text of the reply
into 32 bits, after saturation of the 64-bit `strtol`. -/
theorem atoi_wraps :
    atoi "4294967296" = 0 ∧ atoi "2147483648" = -2147483648 ∧
    atoi "-2147483649" = 2147483647 ∧ atoi " 12x" = 12 ∧ atoi "-7" = -7 ∧
    atoi "99999999999999999999" = -1 ∧ atoi "-99999999999999999999" = 0 ∧ atoi "" = 0 := by
  decide

/-- A reply `4294967296` to `reorg_apply` reads as the count 0: the catch-up
loop goes on to the alive-query and, no row being returned, leaves the loop. -/
theorem catch_up_wrapped_count_exits :
    (apply_until_done example_table "v" 1
      (initial_world 80400 [reply_tuples [[some "4294967296"]], reply_tuples []])).res = .ok () ∧
    (apply_until_done example_table "v" 1
      (initial_world 80400 [reply_tuples [[some "4294967296"]], reply_tuples []])).events =
      [apply_event example_table 1000 (reply_tuples [[some "4294967296"]]),
       alive_event 80400 "v" (reply_tuples [])] := by
  decide
/-! ## The claims -/

/-- Claim C1. The catch-up loop of phase 4 (`apply_until_done`, lines 512-532),
run against an arbitrary list of server replies with an iteration bound `fuel`.
The loop returns, having produced the events `evs` and left the replies
`rest`, exactly when `evs` consists of fewer than `fuel` iterations that
continue, each of them either one `apply_log(table, 1000)` that returned a
count greater than 0 (no alive-query, no sleep) or an `apply_log` that did not,
an alive-query for the token `vxid` that returned at least one row and one
`sleep(1)`, followed by one last iteration in which `apply_log` returned a
count not greater than 0 and the alive-query for `vxid` returned no row, and
the replies the server gave are those recorded in `evs` followed by `rest`.
The count is the `int` that `apply_log` returns, `atoi` of the first field of
the reply wrapped into 32 bits. -/
theorem catch_up_exits_at_first_quiet_iteration (table : reorg_table) (vxid : String)
    (fuel : Nat) (w : World) (evs : List Event) (rest : List PGresult) :
    ((apply_until_done table vxid fuel w).res = .ok () ∧
      (apply_until_done table vxid fuel w).events = evs ∧
      (apply_until_done table vxid fuel w).world.replies = rest) ↔
    ∃ (iters : List (List Event)) (last : List Event), iters.length < fuel ∧
      (∀ it ∈ iters, catch_up_continues table w.server_version vxid it) ∧
      catch_up_exits table w.server_version vxid last ∧
      evs = iters.flatten ++ last ∧
      w.replies = replies_of evs ++ rest := by
  constructor
  · rintro ⟨hres, rfl, rfl⟩
    obtain ⟨iters, last, h1, h2, h3, h4, h5⟩ := catch_up_sound table vxid fuel w hres
    exact ⟨iters, last, h1, h2, h3, h4, h5⟩
  · rintro ⟨iters, last, h1, h2, h3, rfl, h5⟩
    exact catch_up_complete table vxid iters fuel w last rest h1 h2 h3 h5

/-- Claim C2. The lock loop of phase 5 (`lock_loop`, lines 540-564) and what
`swap` sends after it, against an arbitrary list of server replies.
(1) The loop returns exactly when the events are fewer than `fuel` refused
attempts, each of them `BEGIN ISOLATION LEVEL READ COMMITTED`, the
`lock_table` script answered with an error of SQLSTATE 55P03, `ROLLBACK` and
`sleep(1)`, followed by one attempt `BEGIN`, `lock_table` answered
`PGRES_COMMAND_OK` after which nothing is sent (no `ROLLBACK`, no `COMMIT`);
any number of refused attempts is possible.
(2) The loop ends in `exit(1)` exactly when the refused attempts are followed
by `BEGIN`, `lock_table` answered with an error of another SQLSTATE, and the
message printed.
(3) When the loop stops without returning, `swap` sends nothing more.
(4) Whenever `swap` sends `reorg_swap` (line 568), what it sent before is a
number of refused attempts, one granted attempt and the final `apply_log`. -/
theorem lock_loop_protocol (table : reorg_table) (fuel : Nat) (w : World) :
    (∀ evs rest,
      ((lock_loop table fuel w).res = .ok () ∧ (lock_loop table fuel w).events = evs ∧
        (lock_loop table fuel w).world.replies = rest) ↔
      ∃ (attempts : List (List Event)) (last : List Event), attempts.length < fuel ∧
        (∀ it ∈ attempts, lock_retry table it) ∧ lock_granted table last ∧
        evs = attempts.flatten ++ last ∧ w.replies = replies_of evs ++ rest) ∧
    (∀ evs rest,
      ((lock_loop table fuel w).res = .halt (.exit 1) ∧ (lock_loop table fuel w).events = evs ∧
        (lock_loop table fuel w).world.replies = rest) ↔
      ∃ (attempts : List (List Event)) (last : List Event), attempts.length < fuel ∧
        (∀ it ∈ attempts, lock_retry table it) ∧ lock_fatal table last ∧
        evs = attempts.flatten ++ last ∧ w.replies = replies_of evs ++ rest) ∧
    (∀ h, (lock_loop table fuel w).res = .halt h →
      swap table fuel w =
        ⟨(lock_loop table fuel w).events, .halt h, (lock_loop table fuel w).world⟩) ∧
    (∀ pre e post, (swap table fuel w).events = pre ++ e :: post → e.at_line 568 = true →
      ∃ (attempts : List (List Event)) (granted : List Event) (d : PGresult),
        (∀ it ∈ attempts, lock_retry table it) ∧ lock_granted table granted ∧
        d.succeeded = true ∧
        pre = attempts.flatten ++ granted ++ [apply_event table 0 d]) := by
  refine ⟨?_, ?_, ?_, ?_⟩
  · intro evs rest
    constructor
    · rintro ⟨hres, rfl, rfl⟩
      obtain ⟨attempts, last, h1, h2, h3, h4, h5⟩ :=
        lock_loop_sound table fuel w (Or.inl hres)
      rw [hres] at h3
      rcases h3 with ⟨_, h3⟩ | ⟨h3, _⟩
      · exact ⟨attempts, last, h1, h2, h3, h4, h5⟩
      · simp at h3
    · rintro ⟨attempts, last, h1, h2, h3, rfl, h5⟩
      exact lock_loop_complete table attempts fuel w (.ok ()) last rest h1 h2
        (Or.inl ⟨rfl, h3⟩) h5
  · intro evs rest
    constructor
    · rintro ⟨hres, rfl, rfl⟩
      obtain ⟨attempts, last, h1, h2, h3, h4, h5⟩ :=
        lock_loop_sound table fuel w (Or.inr hres)
      rw [hres] at h3
      rcases h3 with ⟨h3, _⟩ | ⟨_, h3⟩
      · simp at h3
      · exact ⟨attempts, last, h1, h2, h3, h4, h5⟩
    · rintro ⟨attempts, last, h1, h2, h3, rfl, h5⟩
      exact lock_loop_complete table attempts fuel w (.halt (.exit 1)) last rest h1 h2
        (Or.inr ⟨rfl, h3⟩) h5
  · intro h hres
    unfold swap
    rw [bind_of_halt hres]
  · intro pre e post hev he
    unfold swap at hev
    obtain ⟨a, pre1, hres, rfl, hev1⟩ :=
      skip_bind (lock_loop_lines table fuel) (by decide) he hev
    dsimp only at hev1
    obtain ⟨n, pre2, hres2, rfl, hev2⟩ :=
      skip_bind (lines_apply_log (S := [374]) (by decide) table 0) (by decide) he hev1
    obtain ⟨hp, _⟩ := head_command_bind (S := [569])
      (fun _ => lines_command (by decide) _ _) (by decide) he hev2
    subst hp
    obtain ⟨attempts, last, _, h2, h3, h4, _⟩ := lock_loop_sound table fuel w (Or.inl hres)
    rw [hres] at h3
    rcases h3 with ⟨_, h3⟩ | ⟨h3, _⟩
    · obtain ⟨d, rs, _, hd, _, hd2⟩ := apply_log_ok hres2
      refine ⟨attempts, last, d, h2, h3, hd, ?_⟩
      rw [h4, hd2]
      simp
    · simp at h3

/-- Claim C3. In every run of `reorg_one_table`, whenever the statement of
line 568 is sent, it is `SELECT reorg.reorg_swap($1)` with the target OID, the
three events just before it are the `BEGIN` of a lock attempt answered with
success (line 542), the `lock_table` script answered `PGRES_COMMAND_OK`
(line 543) and `apply_log` with limit 0 answered with success, so that no
`COMMIT`, `ROLLBACK` or `BEGIN` stands between the granted lock and
`reorg_swap`; and what follows is nothing (the run stopped there) or the
`COMMIT` of line 569. -/
theorem swap_follows_lock_and_drain (table : reorg_table) (orderby : Option String)
    (fuel : Nat) (w : World) (pre post : List Event) (e : Event)
    (hev : (reorg_one_table table orderby fuel w).events = pre ++ e :: post)
    (he : e.at_line 568 = true) :
    (∃ pre0 b r d, pre = pre0 ++ [lock_begin_event b, lock_event table r,
        apply_event table 0 d] ∧
      b.succeeded = true ∧ r.status = .PGRES_COMMAND_OK ∧ d.succeeded = true) ∧
    (∃ rep, e = .exec 568 (some "SELECT reorg.reorg_swap($1)")
      [some (utoa table.target_oid)] rep) ∧
    (post = [] ∨ ∃ c post', post = .exec 569 (some "COMMIT") [] c :: post') := by
  unfold reorg_one_table at hev
  obtain ⟨_, pre1, _, h1, hev1⟩ := skip_bind (setup_lines table) (by decide) he hev
  obtain ⟨_, pre2, _, h2, hev2⟩ :=
    skip_bind (lines_set_current_table [] (some table)) (by decide) he hev1
  obtain ⟨vxid, pre3, _, h3, hev3⟩ :=
    skip_bind (copy_tuples_lines table orderby) (by decide) he hev2
  obtain ⟨_, pre4, _, h4, hev4⟩ :=
    skip_bind (create_indexes_lines table) (by decide) he hev3
  obtain ⟨_, pre5, _, h5, hev5⟩ :=
    skip_bind (apply_until_done_lines table vxid fuel) (by decide) he hev4
  obtain ⟨post', hsw, hpost⟩ := stay_bind (S := [577, 579, 580, 593, 596, 597])
    (fun _ => lines_bind (lines_mono (by simp) (drop_lines table))
      (fun _ => lines_mono (by simp) (analyze_table_lines table))) (by decide) he hev5
  obtain ⟨⟨attempts, granted, d, _, ⟨b, r, hb, hr, hg⟩, hd, h6⟩, hrep, hnext⟩ :=
    swap_events_at_568 table fuel _ pre5 post' e hsw he
  have e5 : ∃ p, pre5 = p ++ [lock_begin_event b, lock_event table r,
      apply_event table 0 d] := ⟨attempts.flatten, by rw [h6, hg]; simp⟩
  have e4 : ∃ p, pre4 = p ++ [lock_begin_event b, lock_event table r,
      apply_event table 0 d] := by rw [h5]; exact ends_append _ e5
  have e3 : ∃ p, pre3 = p ++ [lock_begin_event b, lock_event table r,
      apply_event table 0 d] := by rw [h4]; exact ends_append _ e4
  have e2 : ∃ p, pre2 = p ++ [lock_begin_event b, lock_event table r,
      apply_event table 0 d] := by rw [h3]; exact ends_append _ e3
  have e1 : ∃ p, pre1 = p ++ [lock_begin_event b, lock_event table r,
      apply_event table 0 d] := by rw [h2]; exact ends_append _ e2
  have e0 : ∃ p, pre = p ++ [lock_begin_event b, lock_event table r,
      apply_event table 0 d] := by rw [h1]; exact ends_append _ e1
  obtain ⟨p, hp⟩ := e0
  refine ⟨⟨p, b, r, d, hp, hb, hr, hd⟩, hrep, ?_⟩
  · rcases hpost with ⟨rfl, hh, hhalt⟩ | ⟨a, hok, rfl⟩
    · rcases hnext with ⟨rfl, _⟩ | ⟨c, rfl⟩
      · exact Or.inl rfl
      · exact Or.inr ⟨c, [], rfl⟩
    · rcases hnext with ⟨_, hh, hhalt⟩ | ⟨c, rfl⟩
      · rw [hok] at hhalt
        simp at hhalt
      · exact Or.inr ⟨c, _, rfl⟩

theorem swap_follows_lock_and_drain_witness :
    example_run.events = example_run.events.take 29 ++
      .exec 568 (some "SELECT reorg.reorg_swap($1)") [some "16384"]
        (some (reply_tuples [[some ""]])) :: example_run.events.drop 30 ∧
    (∃ pre0 b r d, example_run.events.take 29 = pre0 ++ [lock_begin_event b,
        lock_event example_table r, apply_event example_table 0 d] ∧
      b.succeeded = true ∧ r.status = .PGRES_COMMAND_OK ∧ d.succeeded = true) :=
  ⟨by decide, (swap_follows_lock_and_drain example_table none 3
    (initial_world 80400 example_replies) (example_run.events.take 29)
    (example_run.events.drop 30)
    (.exec 568 (some "SELECT reorg.reorg_swap($1)") [some "16384"]
      (some (reply_tuples [[some ""]]))) (by decide) (by decide)).1⟩

/-- Claim C4. In every run of `reorg_one_table`:
(1) whenever the snapshot query of line 464 (`SQL_XID_SNAPSHOT`) is sent, what
was sent before is phase 1 followed by `BEGIN ISOLATION LEVEL SERIALIZABLE`
(line 459), the `work_mem` setting (line 461) and possibly
`SET LOCAL synchronize_seqscans = off` (line 463), all answered with success:
nothing of `delete_log`, `create_table` or `disable_autovacuum` comes between
the `BEGIN` of phase 2 and the snapshot;
(2) whenever `delete_log` (line 467) is sent, the event just before it is the
snapshot query answered with success;
(3) whenever `create_table` (line 468) is sent, the event just before it is
`delete_log` answered with success;
(4) every alive-query (line 520) has as its only parameter the first field of
the reply to the snapshot query of this run. -/
theorem snapshot_before_writes (table : reorg_table) (orderby : Option String)
    (fuel : Nat) (w : World) :
    (∀ pre e post, (reorg_one_table table orderby fuel w).events = pre ++ e :: post →
      e.at_line 464 = true →
      (∃ rep, e = .exec 464 (some (SQL_XID_SNAPSHOT w.server_version)) [] rep) ∧
      ∃ pre0 b c, (∀ x ∈ pre0, x.in_lines [426, 434, 439, 440, 441, 443, 444] = true) ∧
        b.succeeded = true ∧ c.succeeded = true ∧
        (pre = pre0 ++
          [.exec 459 (some "BEGIN ISOLATION LEVEL SERIALIZABLE") [] (some b),
           .exec 461 (some
            "SELECT set_config('work_mem', current_setting('maintenance_work_mem'), true)")
            [] (some c)] ∨
         ∃ d, d.succeeded = true ∧ pre = pre0 ++
          [.exec 459 (some "BEGIN ISOLATION LEVEL SERIALIZABLE") [] (some b),
           .exec 461 (some
            "SELECT set_config('work_mem', current_setting('maintenance_work_mem'), true)")
            [] (some c),
           .exec 463 (some "SET LOCAL synchronize_seqscans = off") [] (some d)])) ∧
    (∀ pre e post, (reorg_one_table table orderby fuel w).events = pre ++ e :: post →
      e.at_line 467 = true →
      ∃ pre0 r, r.succeeded = true ∧
        pre = pre0 ++ [.exec 464 (some (SQL_XID_SNAPSHOT w.server_version)) [] (some r)] ∧
        ∃ rep, e = .exec 467 table.delete_log [] rep) ∧
    (∀ pre e post, (reorg_one_table table orderby fuel w).events = pre ++ e :: post →
      e.at_line 468 = true →
      ∃ pre0 r, r.succeeded = true ∧
        pre = pre0 ++ [.exec 467 table.delete_log [] (some r)] ∧
        ∃ rep, e = .exec 468 table.create_table [] rep) ∧
    (∀ e ∈ (reorg_one_table table orderby fuel w).events, e.at_line 520 = true →
      ∃ r vxid rep,
        Event.exec 464 (some (SQL_XID_SNAPSHOT w.server_version)) [] (some r)
          ∈ (reorg_one_table table orderby fuel w).events ∧
        PQgetvalue r 0 0 = some vxid ∧
        e = .exec 520 (some (SQL_XID_ALIVE w.server_version)) [some vxid] rep) := by
  refine ⟨?_, ?_, ?_, ?_⟩
  · intro pre e post hev he
    obtain ⟨w2, pre2, post2, hver, hpre, hcopy⟩ :=
      reorg_one_table_events_in_copy table orderby fuel w pre post e 464 (Or.inl rfl) hev he
    rw [copy_tuples_split, hver] at hcopy
    obtain ⟨a, pre3, hres, hpre3, htail⟩ :=
      skip_bind (copy_tuples_head_lines orderby w.server_version) (by decide) he hcopy
    obtain ⟨hnil, hrep⟩ := (copy_tuples_tail_order table _ _ _ _ _ htail).1 he
    subst hnil
    obtain ⟨b, c, hb, hc, hshape⟩ := copy_tuples_head_ok hres
    refine ⟨hrep, (setup table w).events, b, c, (setup_lines table).sub w, hb, hc, ?_⟩
    rcases hshape with hs | ⟨d, hd, hs⟩
    · left
      rw [hpre, hpre3, hs]
      simp
    · right
      refine ⟨d, hd, ?_⟩
      rw [hpre, hpre3, hs]
      simp
  · intro pre e post hev he
    obtain ⟨w2, pre2, post2, hver, hpre, hcopy⟩ :=
      reorg_one_table_events_in_copy table orderby fuel w pre post e 467
        (Or.inr (Or.inl rfl)) hev he
    rw [copy_tuples_split, hver] at hcopy
    obtain ⟨a, pre3, hres, hpre3, htail⟩ :=
      skip_bind (copy_tuples_head_lines orderby w.server_version) (by decide) he hcopy
    obtain ⟨r, hr, hp, hrep⟩ := (copy_tuples_tail_order table _ _ _ _ _ htail).2.1 he
    refine ⟨(setup table w).events ++ (copy_tuples_head orderby w.server_version w2).events,
      r, hr, ?_, hrep⟩
    rw [hpre, hpre3, hp]
    simp
  · intro pre e post hev he
    obtain ⟨w2, pre2, post2, hver, hpre, hcopy⟩ :=
      reorg_one_table_events_in_copy table orderby fuel w pre post e 468
        (Or.inr (Or.inr rfl)) hev he
    rw [copy_tuples_split, hver] at hcopy
    obtain ⟨a, pre3, hres, hpre3, htail⟩ :=
      skip_bind (copy_tuples_head_lines orderby w.server_version) (by decide) he hcopy
    obtain ⟨pre0, r, hr, hp, hrep⟩ := (copy_tuples_tail_order table _ _ _ _ _ htail).2.2 he
    refine ⟨(setup table w).events ++ ((copy_tuples_head orderby w.server_version w2).events
      ++ pre0), r, hr, ?_, hrep⟩
    rw [hpre, hpre3, hp]
    simp
  · intro e hmem he
    obtain ⟨pre, post, hev⟩ := List.append_of_mem hmem
    have hev0 := hev
    unfold reorg_one_table at hev
    obtain ⟨_, pre1, _, h1, hev1⟩ := skip_bind (setup_lines table) (by decide) he hev
    simp only [set_current_table_bind_apply] at hev1
    obtain ⟨vxid, pre2, hres2, h2, hev2⟩ :=
      skip_bind (copy_tuples_lines table orderby) (by decide) he hev1
    obtain ⟨_, pre3, _, h3, hev3⟩ :=
      skip_bind (create_indexes_lines table) (by decide) he hev2
    obtain ⟨post4, h4, _⟩ := stay_bind
      (S := [542, 543, 553, 374, 568, 569, 577, 579, 580, 593, 596, 597])
      (fun _ => by
        repeat (first
          | exact lines_mono (by simp) (swap_lines table fuel)
          | exact lines_mono (by simp) (drop_lines table)
          | exact lines_mono (by simp) (analyze_table_lines table)
          | apply lines_bind
          | intro _)) (by decide) he hev3
    have hmem4 : e ∈ pre3 ++ e :: post4 := by simp
    rw [← h4] at hmem4
    obtain ⟨rep, hrep⟩ := apply_until_done_alive table vxid fuel _ e hmem4 he
    obtain ⟨r, hr1, hr2⟩ := copy_tuples_ok hres2
    have hv2 : ({ (setup table w).world with current_table := some table } : World).server_version
        = w.server_version := by
      simp only
      exact frame_server_version (setup_frame table) w
    rw [frame_server_version (create_indexes_frame table),
      frame_server_version (copy_tuples_frame table orderby), hv2] at hrep
    have hq : SQL_XID_SNAPSHOT
        ({ (setup table w).world with current_table := some table } : World).server_version
        = SQL_XID_SNAPSHOT w.server_version := congrArg SQL_XID_SNAPSHOT hv2
    rw [hq] at hr1
    refine ⟨r, vxid, rep, ?_, hr2, hrep⟩
    rw [hev0, h1, h2]
    simp only [List.mem_append]
    exact Or.inl (Or.inr (Or.inl hr1))

theorem snapshot_before_writes_witness :
    example_run.events = example_run.events.take 10 ++
      .exec 467 (some "DELETE FROM log") [] (some reply_command_ok)
        :: example_run.events.drop 11 ∧
    ∃ pre0 r, r.succeeded = true ∧
      example_run.events.take 10 = pre0 ++
        [.exec 464 (some (SQL_XID_SNAPSHOT 80400)) [] (some r)] ∧
      ∃ rep, Event.exec 467 (some "DELETE FROM log") [] (some reply_command_ok)
        = .exec 467 example_table.delete_log [] rep :=
  ⟨by decide, (snapshot_before_writes example_table none 3
    (initial_world 80400 example_replies)).2.1 (example_run.events.take 10)
    (.exec 467 (some "DELETE FROM log") [] (some reply_command_ok))
    (example_run.events.drop 11) (by decide) (by decide)⟩

/-- Claim C9. A row of the catalog probe without primary key is rejected
before `reorg_one_table` is called: a null `pkid` column reads as OID 0; and
when the `pkid` of row `i` reads as OID 0, the loop of `reorg_one_database`
stops at that row with the error of line 311,
`relation "<target_name>" has no primary key`, without any event (no
statement of `reorg_one_table` is sent) and without changing the state.  A
row whose `pkid` is not 0 is not rejected with that error. -/
theorem missing_primary_key_rejected (orderby : Option String) (res : PGresult)
    (fuel i n : Nat) (w : World) :
    (PQgetisnull res i 4 = true → getoid res i 4 = 0) ∧
    (getoid res i 4 = 0 →
      reorg_tables_loop orderby res fuel i (n + 1) w =
        ⟨[], .halt (.error 311
          ("relation \"" ++ fmt_s (getstr res i 0) ++ "\" has no primary key")), w⟩) ∧
    (getoid res i 4 ≠ 0 →
      ∀ msg, (read_table orderby res i w).res ≠ .halt (.error 311 msg)) := by
  refine ⟨?_, ?_, ?_⟩
  · intro h
    simp [getoid, h, InvalidOid]
  · intro h
    unfold reorg_tables_loop read_table
    simp only [h, if_true, bind_assoc_M]
    rfl
  · intro h msg
    unfold read_table
    simp only [h, if_false]
    rcases orderby with _ | o
    · rcases hk : getstr res i 12 with _ | k
      · simp [bind_apply]
      · simp [bind_apply]
    · by_cases ho : o = ""
      · simp [bind_apply, ho]
      · simp [bind_apply, ho]

theorem missing_primary_key_rejected_witness :
    getoid (reply_tuples [[some "t", some "16384", none, none, none]]) 0 4 = 0 ∧
    reorg_tables_loop none (reply_tuples [[some "t", some "16384", none, none, none]]) 3 0 1
        (initial_world 80400 example_replies) =
      ⟨[], .halt (.error 311 "relation \"t\" has no primary key"),
        initial_world 80400 example_replies⟩ :=
  ⟨by decide, (missing_primary_key_rejected none
    (reply_tuples [[some "t", some "16384", none, none, none]]) 3 0 0
    (initial_world 80400 example_replies)).2.1 (by decide)⟩

/-- Claim C5. The shadow-table script by mode, for a row `i` of the catalog
probe that has a primary key and whose base script (column 9) is `B`; `K` is
the cluster-key expression (column 12).
(1) Order option unset and `K` null: the loop of `reorg_one_database` stops at
that row with the error of line 327, `relation "<name>" has no cluster key`,
without any event: `reorg_one_table` is not called.
(2) Otherwise `read_table` returns a descriptor `t` without any event, and the
loop goes on with `reorg_one_table t`; in `t`, `create_table` is
`B ++ " ORDER BY " ++ K` when the order option is unset, `B` itself when the
order option is the empty string, `B ++ " ORDER BY " ++ O` when it is a
non-empty string `O`; in all cases `B` is a prefix of it, and every other
field of `t` is the column of the row, unmodified.
(3) The option `-n` sets the order option to the empty string. -/
theorem create_table_by_mode (orderby : Option String) (res : PGresult) (i : Nat)
    (w : World) (B : String) (hpk : getoid res i 4 ≠ 0) (hB : getstr res i 9 = some B) :
    (orderby = none → getstr res i 12 = none → ∀ fuel n,
      reorg_tables_loop orderby res fuel i (n + 1) w =
        ⟨[], .halt (.error 327
          ("relation \"" ++ fmt_s (getstr res i 0) ++ "\" has no cluster key")), w⟩) ∧
    ((orderby = none → getstr res i 12 ≠ none) →
      ∃ t, read_table orderby res i w = ⟨[], .ok t, w⟩ ∧
        (∀ fuel n, reorg_tables_loop orderby res fuel i (n + 1) w =
          (reorg_one_table t orderby fuel >>= fun _ =>
            reorg_tables_loop orderby res fuel (i + 1) n) w) ∧
        (∀ K, orderby = none → getstr res i 12 = some K →
          t.create_table = some (B ++ " ORDER BY " ++ K)) ∧
        (orderby = some "" → t.create_table = some B) ∧
        (∀ O, orderby = some O → O ≠ "" → t.create_table = some (B ++ " ORDER BY " ++ O)) ∧
        (∃ suffix, t.create_table = some (B ++ suffix)) ∧
        t.target_name = getstr res i 0 ∧ t.target_oid = getoid res i 1 ∧
        t.target_toast = getoid res i 2 ∧ t.target_tidx = getoid res i 3 ∧
        t.pkid = getoid res i 4 ∧ t.ckid = getoid res i 5 ∧
        t.create_pktype = getstr res i 6 ∧ t.create_log = getstr res i 7 ∧
        t.create_trigger = getstr res i 8 ∧ t.delete_log = getstr res i 10 ∧
        t.lock_table = getstr res i 11 ∧ t.sql_peek = getstr res i 13 ∧
        t.sql_insert = getstr res i 14 ∧ t.sql_delete = getstr res i 15 ∧
        t.sql_update = getstr res i 16 ∧ t.sql_pop = getstr res i 17) ∧
    (∀ arg w0, (pgut_argument 'n' arg w0).world.orderby = some "") := by
  refine ⟨?_, ?_, ?_⟩
  · intro ho hk fuel n
    subst ho
    unfold reorg_tables_loop read_table
    simp only [hpk, if_false, hk, bind_assoc_M]
    rfl
  · intro hmode
    rcases orderby with _ | o
    · rcases hk : getstr res i 12 with _ | k
      · exact absurd hk (hmode rfl)
      · refine ⟨descriptor_of_row res i (some (fmt_s (getstr res i 9) ++ " ORDER BY " ++ k)),
          ?_, ?_, ?_⟩
        · unfold read_table
          simp only [hpk, if_false, hk]
          rfl
        · intro fuel n
          rw [reorg_tables_loop_succ]
          refine bind_of_silent ?_
          unfold read_table
          simp only [hpk, if_false, hk]
          rfl
        · simp [descriptor_of_row, hB, fmt_s, String.append_assoc]
    · by_cases ho : o = ""
      · refine ⟨descriptor_of_row res i (getstr res i 9), ?_, ?_, ?_⟩
        · unfold read_table
          simp only [hpk, if_false, ho, if_true]
          rfl
        · intro fuel n
          rw [reorg_tables_loop_succ]
          refine bind_of_silent ?_
          unfold read_table
          simp only [hpk, if_false, ho, if_true]
          rfl
        · simp [descriptor_of_row, hB, ho]
          exact ⟨"", by simp⟩
      · refine ⟨descriptor_of_row res i (some (fmt_s (getstr res i 9) ++ " ORDER BY " ++ o)),
          ?_, ?_, ?_⟩
        · unfold read_table
          simp only [hpk, if_false, ho]
          rfl
        · intro fuel n
          rw [reorg_tables_loop_succ]
          refine bind_of_silent ?_
          unfold read_table
          simp only [hpk, if_false, ho]
          rfl
        · simp [descriptor_of_row, hB, fmt_s, ho, String.append_assoc]
  · intro arg w0
    simp [pgut_argument, assign_option]

theorem create_table_by_mode_witness :
    getoid example_probe 0 4 ≠ 0 ∧
    getstr example_probe 0 9 = some "CREATE TABLE tbl AS SELECT" ∧
    ∃ t, read_table none example_probe 0 (initial_world 80400 []) =
        ⟨[], .ok t, initial_world 80400 []⟩ ∧
      t.create_table = some ("CREATE TABLE tbl AS SELECT" ++ " ORDER BY " ++ "id") :=
  ⟨by decide, by decide,
    match (create_table_by_mode none example_probe 0 (initial_world 80400 [])
      "CREATE TABLE tbl AS SELECT" (by decide) (by decide)).2.1 (fun _ => by decide) with
    | ⟨t, h1, _, h3, _⟩ => ⟨t, h1, h3 "id" rfl (by decide)⟩⟩

/-- Claim C8 fails on the code. After `pgut_argument('Z')` the flag `analyze`
is false, and a complete run of `reorg_one_table` still sends the three
statements of phase 7 after the `COMMIT` of the drop phase: `BEGIN`,
`ANALYZE t` and `COMMIT`. -/
theorem analyze_sent_despite_no_analyze :
    (pgut_argument 'Z' none (initial_world 80400 example_replies)).world.analyze = false ∧
    (reorg_one_table example_table none 3
      (pgut_argument 'Z' none (initial_world 80400 example_replies)).world).res = .ok () ∧
    (reorg_one_table example_table none 3
      (pgut_argument 'Z' none (initial_world 80400 example_replies)).world).events.drop 33 =
      [.exec 580 (some "COMMIT") [] (some reply_command_ok),
       .exec 593 (some "BEGIN ISOLATION LEVEL READ COMMITTED") [] (some reply_command_ok),
       .exec 596 (some "ANALYZE t") [] (some reply_command_ok),
       .exec 597 (some "COMMIT") [] (some reply_command_ok)] := by
  decide

/-- Claim C10 fails on the code as stated. In the complete run of the
examples the events are not a sequence of `BEGIN ... COMMIT` blocks: after the
`COMMIT` of phase 2 no transaction is open, and the next statement is the
index-list query of phase 3 (line 480). -/
theorem index_query_outside_transaction :
    example_run.res = .ok () ∧
    bracketed example_run.events = false ∧
    txn_run (fun _ => false) false (example_run.events.take 14) = some false ∧
    (example_run.events.drop 14).head? = some (.exec 480
      (some ("SELECT indexrelid, reorg.reorg_indexdef(indexrelid, indrelid)"
        ++ " FROM pg_index WHERE indrelid = $1")) [some "16384"]
      (some (reply_tuples [[some "16400", some "CREATE INDEX i ON tbl (id)"]]))) := by
  decide

/-- Claim C10, amended. In every run of `reorg_one_table` that returns, the
events are accepted by the transaction tracker started with no transaction
open and ending with none open, where every `BEGIN` comes when no transaction
is open, every `COMMIT` or `ROLLBACK` when one is, every statement of phases
1, 2, 5, 6 and 7 comes inside a transaction, and every statement of phase 3
(index-list query, `CREATE INDEX`) and of phase 4 (`reorg_apply` with limit
1000, alive-query) comes outside any transaction opened by the driver. -/
theorem phases_bracketed_except_3_and_4 (table : reorg_table) (orderby : Option String)
    (fuel : Nat) (w : World) (h : (reorg_one_table table orderby fuel w).res = .ok ()) :
    bracketed_but Event.in_phase_3_or_4 (reorg_one_table table orderby fuel w).events
      = true := by
  unfold bracketed_but
  rw [(reorg_one_table_txn table orderby fuel).run w () h]
  rfl

theorem phases_bracketed_except_3_and_4_witness :
    example_run.res = .ok () ∧
    bracketed_but Event.in_phase_3_or_4 example_run.events = true :=
  ⟨by decide, phases_bracketed_except_3_and_4 example_table none 3
    (initial_world 80400 example_replies) (by decide)⟩

end PgReorg
